import Mathlib

/-!
Shallow embedding of the reminder core of the `learning_en_bot` repository
(`src/learning_en_bot/database.py`, `settings.py`, `reminders.py`,
`scheduler.py`) and proofs about the specification's claims.

Python strings are modelled as lists of characters (`PyStr`); Python's
`str.strip`, `str.lower`, `str.split` and `int()` are embedded for the
ASCII fragment that the repository's data uses.  SQLite timestamps are
modelled as natural numbers (seconds), with `DATE()` truncating to the
day index.  Each database table is a list of row structures; every
operation is a pure function returning its result together with the new
table state.  Python floats are modelled as exact rationals.
-/

namespace LearningEnBot

abbrev PyStr := List Char

/-- Python whitespace for `str.strip()` (ASCII fragment). -/
def pyIsSpace (c : Char) : Bool :=
  c = ' ' || c = '\t' || c = '\n' || c = '\x0d' || c = '\x0b' || c = '\x0c'

/-- Python `str.strip()`: drop leading and trailing whitespace. -/
def pyStrip (s : PyStr) : PyStr :=
  ((s.dropWhile pyIsSpace).reverse.dropWhile pyIsSpace).reverse

/-- Python `str.lower()` on a character (ASCII fragment). -/
def pyToLower (c : Char) : Char :=
  if 'A' ≤ c ∧ c ≤ 'Z' then Char.ofNat (c.toNat + 32) else c

/-- Python `str.lower()` (ASCII fragment). -/
def pyLower (s : PyStr) : PyStr := s.map pyToLower

/-- Python `str.split(sep)` for a one-character separator:
`"".split(":") = [""]`, and separators delimit possibly empty fields. -/
def pySplit (sep : Char) : PyStr → List PyStr
  | [] => [[]]
  | c :: rest =>
    match pySplit sep rest with
    | [] => []
    | g :: gs => if c = sep then [] :: g :: gs else (c :: g) :: gs

/-- Digit tail of Python `int()`: after a first digit, digits may be
separated by single underscores (`int("1_0") = 10`, `int("1__0")` and
`int("1_")` raise). `acc` is the value of the digits read so far. -/
def pyDigitsAux : ℕ → PyStr → Option ℕ
  | acc, [] => some acc
  | acc, '_' :: c :: rest =>
    if c.isDigit then pyDigitsAux (acc * 10 + (c.toNat - 48)) rest else none
  | acc, c :: rest =>
    if c.isDigit then pyDigitsAux (acc * 10 + (c.toNat - 48)) rest else none

/-- Unsigned digit string accepted by Python `int()`. -/
def pyDigitsVal : PyStr → Option ℕ
  | [] => none
  | c :: rest => if c.isDigit then pyDigitsAux (c.toNat - 48) rest else none

/-- Python `int(s)` on a string (ASCII fragment): surrounding whitespace is
stripped, an optional single sign is allowed, and failure (`ValueError`)
is `none`. -/
def pyParseInt (s : PyStr) : Option ℤ :=
  match pyStrip s with
  | '+' :: rest => (pyDigitsVal rest).map (fun n => (n : ℤ))
  | '-' :: rest => (pyDigitsVal rest).map (fun n => -(n : ℤ))
  | t => (pyDigitsVal t).map (fun n => (n : ℤ))

/-- Python `round(x, 1)` with round-half-to-even, on exact rationals:
the integer nearest to `x * 10` (ties to the even integer), divided by 10. -/
def pyRoundHalfEven (x : ℚ) : ℤ :=
  if x - ⌊x⌋ = 1 / 2 then (if ⌊x⌋ % 2 = 0 then ⌊x⌋ else ⌊x⌋ + 1) else round x

/-- Python `round(x, 1)`. -/
def pyRound1 (x : ℚ) : ℚ := (pyRoundHalfEven (x * 10) : ℚ) / 10

/-- `SettingsManager.validate_time` (settings.py, lines 55-67): strip, split
on `:`, require exactly two integer parts with `0 ≤ H ≤ 23`, `0 ≤ M ≤ 59`;
a `ValueError` from `int()` yields `False`. -/
def validate_time (s : PyStr) : Bool :=
  match pySplit ':' (pyStrip s) with
  | [hs, ms] =>
    match pyParseInt hs, pyParseInt ms with
    | some h, some m => decide (0 ≤ h ∧ h ≤ 23) && decide (0 ≤ m ∧ m ≤ 59)
    | _, _ => false
  | _ => false

/-- `WordDatabase._validate_time_format` (database.py, lines 618-628):
same algorithm as `SettingsManager.validate_time`. -/
def validate_time_format (s : PyStr) : Bool :=
  match pySplit ':' (pyStrip s) with
  | [hs, ms] =>
    match pyParseInt hs, pyParseInt ms with
    | some h, some m => decide (0 ≤ h ∧ h ≤ 23) && decide (0 ≤ m ∧ m ≤ 59)
    | _, _ => false
  | _ => false

/-! ## The `words` table (WordStore) -/

/-- One row of the `words` table.  `created_at` and `last_reviewed_at` are
timestamps in seconds; the `id` column is not observable through any
modelled operation and is omitted. -/
structure WordRow where
  user_id : ℤ
  english : PyStr
  russian : PyStr
  transcription : Option PyStr
  topic : Option PyStr
  created_at : ℕ
  last_reviewed_at : Option ℕ
  review_count : ℕ
  difficulty : ℤ
deriving DecidableEq, Repr

/-- SQLite `DATE()` of a timestamp: the day index. -/
def dateOfTs (ts : ℕ) : ℕ := ts / 86400

/-- The `WHERE user_id = ? AND english = ?` condition. -/
def sameKey (uid : ℤ) (key : PyStr) (r : WordRow) : Bool :=
  r.user_id == uid && r.english == key

/-- Python truthiness of `transcription.strip() if transcription else None`:
a missing or empty optional field stays `None`, otherwise it is stripped. -/
def stripOpt (o : Option PyStr) : Option PyStr :=
  match o with
  | some t => if t = [] then none else some (pyStrip t)
  | none => none

/-- `WordDatabase.add_word` (database.py, lines 149-183).  The emptiness
check `if not english or not russian` runs on the raw inputs, before the
`lower().strip()` normalisation.  `INSERT OR REPLACE` under
`UNIQUE(user_id, english)` deletes every row with the same key and appends
the fresh row with column defaults.  There is no user_id validation. -/
def add_word (db : List WordRow) (uid : ℤ) (english russian : PyStr)
    (transcription topic : Option PyStr) (now : ℕ) : Bool × List WordRow :=
  if english = [] ∨ russian = [] then (false, db)
  else
    let key := pyStrip (pyLower english)
    let row : WordRow :=
      { user_id := uid, english := key, russian := pyStrip russian,
        transcription := stripOpt transcription, topic := stripOpt topic,
        created_at := now, last_reviewed_at := none,
        review_count := 0, difficulty := 1 }
    (true, db.filter (fun r => ! sameKey uid key r) ++ [row])

/-- `ORDER BY created_at DESC` comparison. -/
def created_desc (a b : WordRow) : Bool := b.created_at ≤ a.created_at

/-- `WordDatabase.get_user_words` (database.py, lines 185-212): guarded by
`isinstance(user_id, int) and user_id > 0`, returns
`(english, russian, transcription, topic)` tuples, newest first. -/
def get_user_words (db : List WordRow) (uid : ℤ) :
    List (PyStr × PyStr × Option PyStr × Option PyStr) :=
  if uid ≤ 0 then []
  else
    ((db.filter (fun r => r.user_id == uid)).mergeSort created_desc).map
      (fun r => (r.english, r.russian, r.transcription, r.topic))

/-- `WordDatabase.delete_word` (database.py, lines 261-301): validates the
user id and that the word is non-empty before and after stripping; reports
whether a row was deleted (`cursor.rowcount > 0`). -/
def delete_word (db : List WordRow) (uid : ℤ) (english : PyStr) :
    Bool × List WordRow :=
  if uid ≤ 0 then (false, db)
  else if english = [] ∨ pyStrip english = [] then (false, db)
  else
    let key := pyStrip (pyLower english)
    let remaining := db.filter (fun r => ! sameKey uid key r)
    (decide (remaining.length < db.length), remaining)

/-- The difficulty update of `mark_word_reviewed` (database.py, lines
404-410): `max(1, difficulty - 1)` on a correct answer, `min(10,
difficulty + 1)` on an incorrect one. -/
def new_difficulty (correct : Bool) (difficulty : ℤ) : ℤ :=
  if correct then max 1 (difficulty - 1) else min 10 (difficulty + 1)

/-- `WordDatabase.mark_word_reviewed` (database.py, lines 381-426): the key
is `english.lower()` (lower-cased but NOT stripped); a missing row yields
`False`; otherwise the matching row gets `last_reviewed_at =
CURRENT_TIMESTAMP`, `review_count = review_count + 1` and the new
difficulty computed from the fetched row. -/
def mark_word_reviewed (db : List WordRow) (uid : ℤ) (english : PyStr)
    (correct : Bool) (now : ℕ) : Bool × List WordRow :=
  let key := pyLower english
  match db.find? (sameKey uid key) with
  | none => (false, db)
  | some r0 =>
    let nd := new_difficulty correct r0.difficulty
    (true, db.map (fun r =>
      if sameKey uid key r then
        { r with last_reviewed_at := some now,
                 review_count := r.review_count + 1, difficulty := nd }
      else r))

/-- The statistics dictionary returned by `get_reminder_stats`. -/
structure ReminderStats where
  total_words : ℕ
  never_reviewed : ℕ
  reviewed_today : ℕ
  avg_difficulty : ℚ
  ready_for_reminder : Bool
deriving DecidableEq, Repr

/-- `WordDatabase.get_reminder_stats` (database.py, lines 428-488):
counts over the user's rows; `AVG(difficulty)` is `NULL` on no rows and the
Python fallback `result[0] if result and result[0] else 1` also maps a zero
average to 1; `ready_for_reminder` starts as `never_reviewed > 0` and is
forced true when `reviewed_today < total_words // 3` with some words. -/
def get_reminder_stats (db : List WordRow) (uid : ℤ) (today : ℕ) :
    ReminderStats :=
  let rows := db.filter (fun r => r.user_id == uid)
  let total_words := rows.length
  let never_reviewed := (rows.filter (fun r => r.last_reviewed_at = none)).length
  let reviewed_today := (rows.filter (fun r =>
    match r.last_reviewed_at with
    | some ts => dateOfTs ts == today
    | none => false)).length
  let avg_raw : ℚ :=
    if total_words = 0 then 1
    else
      let a : ℚ := ((rows.map (fun r => r.difficulty)).sum : ℤ) / (total_words : ℚ)
      if a = 0 then 1 else a
  let ready0 := decide (never_reviewed > 0)
  let ready := if total_words > 0 ∧ reviewed_today < total_words / 3 then true else ready0
  { total_words := total_words, never_reviewed := never_reviewed,
    reviewed_today := reviewed_today, avg_difficulty := pyRound1 avg_raw,
    ready_for_reminder := ready }

/-! ## The `user_settings` table (SettingsStore) -/

/-- One row of the `user_settings` table (`user_id` is the primary key). -/
structure SettingsRow where
  user_id : ℤ
  morning_time : PyStr
  evening_time : PyStr
  reminders_enabled : Bool
  created_at : ℕ
  updated_at : ℕ
deriving DecidableEq, Repr

/-- The default morning time string `"09:00"`. -/
def default_morning : PyStr := ['0', '9', ':', '0', '0']

/-- The default evening time string `"20:00"`. -/
def default_evening : PyStr := ['2', '0', ':', '0', '0']

/-- The settings dictionary returned by `get_user_settings`. -/
structure UserSettings where
  morning_time : PyStr
  evening_time : PyStr
  reminders_enabled : Bool
deriving DecidableEq, Repr

/-- Python truthiness guard `if morning_time and not
self._validate_time_format(morning_time)`: an absent (`None`) or empty
supplied time skips validation. -/
def bad_time (o : Option PyStr) : Bool :=
  match o with
  | some s => decide (s ≠ []) && ! validate_time_format s
  | none => false

/-- `WordDatabase.update_user_settings` (database.py, lines 547-616):
validates the user id and any truthy supplied time before touching the
table; an existing row is updated in place (`morning_time if morning_time
else result[0]`, likewise for the evening time, `reminders_enabled` only
replaced when not `None`, `updated_at = CURRENT_TIMESTAMP`); a missing row
is inserted with `morning_time or "09:00"`, `evening_time or "20:00"` and
enabled defaulting to 1. -/
def update_user_settings (db : List SettingsRow) (uid : ℤ)
    (morning_time evening_time : Option PyStr) (reminders_enabled : Option Bool)
    (now : ℕ) : Bool × List SettingsRow :=
  if uid ≤ 0 then (false, db)
  else if bad_time morning_time then (false, db)
  else if bad_time evening_time then (false, db)
  else
    match db.find? (fun r => r.user_id == uid) with
    | some r =>
      let new_morning := match morning_time with
        | some s => if s ≠ [] then s else r.morning_time
        | none => r.morning_time
      let new_evening := match evening_time with
        | some s => if s ≠ [] then s else r.evening_time
        | none => r.evening_time
      let new_enabled := match reminders_enabled with
        | some b => b
        | none => r.reminders_enabled
      (true, db.map (fun x =>
        if x.user_id == uid then
          { x with morning_time := new_morning, evening_time := new_evening,
                   reminders_enabled := new_enabled, updated_at := now }
        else x))
    | none =>
      let row : SettingsRow :=
        { user_id := uid,
          morning_time := match morning_time with
            | some s => if s ≠ [] then s else default_morning
            | none => default_morning,
          evening_time := match evening_time with
            | some s => if s ≠ [] then s else default_evening
            | none => default_evening,
          reminders_enabled := match reminders_enabled with
            | some b => b
            | none => true,
          created_at := now, updated_at := now }
      (true, db ++ [row])

/-- `WordDatabase.get_user_settings` (database.py, lines 492-545): an
invalid user id yields the defaults without a read; a missing row is
created with the defaults through `update_user_settings` (side-effecting
read), so the possibly-updated table is returned as well. -/
def get_user_settings (db : List SettingsRow) (uid : ℤ) (now : ℕ) :
    UserSettings × List SettingsRow :=
  if uid ≤ 0 then
    ({ morning_time := default_morning, evening_time := default_evening,
       reminders_enabled := true }, db)
  else
    match db.find? (fun r => r.user_id == uid) with
    | some r =>
      ({ morning_time := r.morning_time, evening_time := r.evening_time,
         reminders_enabled := r.reminders_enabled }, db)
    | none =>
      let db2 := (update_user_settings db uid (some default_morning)
        (some default_evening) (some true) now).2
      ({ morning_time := default_morning, evening_time := default_evening,
         reminders_enabled := true }, db2)

/-! ## The reminder selector (reminders.py) -/

/-- The selection modes returned by `get_reminder_mode_recommendation`. -/
inductive ReminderMode where
  | no_words
  | mode_1_recent
  | mode_2_old
  | mode_2_difficult
deriving DecidableEq, Repr

/-- The decision cascade of
`ReminderSystem.get_reminder_mode_recommendation` (reminders.py, lines
14-36), as a function of the statistics record. -/
def recommend_from_stats (stats : ReminderStats) : ReminderMode :=
  if stats.total_words = 0 then ReminderMode.no_words
  else if stats.never_reviewed ≥ 10 then ReminderMode.mode_1_recent
  else if stats.never_reviewed < 5 ∧ stats.total_words > 15 then ReminderMode.mode_2_old
  else if stats.avg_difficulty > 3 then ReminderMode.mode_2_difficult
  else ReminderMode.mode_1_recent

/-- `ReminderSystem.get_reminder_mode_recommendation`: fetches the user's
statistics and applies the cascade. -/
def get_reminder_mode_recommendation (db : List WordRow) (uid : ℤ) (today : ℕ) :
    ReminderMode :=
  recommend_from_stats (get_reminder_stats db uid today)

/-! ## The scheduler (scheduler.py)

The scheduler's wall clock is a calendar day index `today` together with a
minute-of-day `currentMinute` (the Python code compares
`now.time().replace(second=0, microsecond=0)` against `time(hour, minute)`,
i.e. times truncated to the minute).  `self.sent_today` is a Python dict
keyed by `(user_id, slot)`.
-/

/-- One of the two daily reminder slots. -/
inductive Slot where
  | morning
  | evening
deriving DecidableEq, Repr

/-- The in-memory dedup dictionary `self.sent_today`. -/
abbrev DedupMap := List ((ℤ × Slot) × ℕ)

/-- Python `dict.get`. -/
def dictGet : DedupMap → ℤ × Slot → Option ℕ
  | [], _ => none
  | kv :: rest, k => if kv.1 == k then some kv.2 else dictGet rest k

/-- Python `dict.__setitem__`. -/
def dictSet : DedupMap → ℤ × Slot → ℕ → DedupMap
  | [], k, v => [(k, v)]
  | kv :: rest, k, v =>
    if kv.1 == k then (k, v) :: rest else kv :: dictSet rest k v

/-- `ReminderScheduler._parse_time` (scheduler.py, lines 23-36): split on
`:`, two parts, `int()` each, range-check, and fall back to `(9, 0)` on
any failure.  Unlike the validators, the whole string is not stripped. -/
def parse_time (s : PyStr) : ℕ × ℕ :=
  match pySplit ':' s with
  | [hs, ms] =>
    match pyParseInt hs, pyParseInt ms with
    | some h, some m =>
      if 0 ≤ h ∧ h ≤ 23 ∧ 0 ≤ m ∧ m ≤ 59 then (h.toNat, m.toNat) else (9, 0)
    | _, _ => (9, 0)
  | _ => (9, 0)

/-- Python substring test `needle in hay`. -/
def py_contains (needle hay : PyStr) : Bool :=
  hay.tails.any (fun t => needle.isPrefixOf t)

/-- The marker `"❌ Нет слов"` that suppresses a send (scheduler.py, lines
55 and 79). -/
def no_words_marker : PyStr :=
  ['❌', ' ', 'Н', 'е', 'т', ' ', 'с', 'л', 'о', 'в']

/-- Modelled from the spec: the scheduler calls
`reminder_system.get_morning_reminder_message` /
`get_evening_reminder_message`, which are not part of the given sources
(only their callers are).  Per the spec (section 4.4, step 4) the send
routine obtains the slot's formatted word selection, where an empty
selection is signalled inside the text itself; we model the message
provider as an arbitrary function from user and slot to the text. -/
abbrev MessageProvider := ℤ → Slot → PyStr

/-- `ReminderScheduler.send_morning_reminder` / `send_evening_reminder`
(scheduler.py, lines 38-84); the two methods are identical up to the slot.
Re-reads the user's settings (which may lazily insert a defaults row),
returns without sending if reminders are disabled or the slot was already
sent today, sends when the text is truthy and lacks the no-words marker,
and only then records the dedup entry.  The returned list holds the
`Notifier.Send` events of this call. -/
def send_slot_reminder (msg : MessageProvider) (slot : Slot) (today nowTs : ℕ)
    (uid : ℤ) (db : List SettingsRow) (st : DedupMap) :
    List (ℤ × Slot) × List SettingsRow × DedupMap :=
  let res := get_user_settings db uid nowTs
  if ! res.1.reminders_enabled then ([], res.2, st)
  else if dictGet st (uid, slot) == some today then ([], res.2, st)
  else
    let text := msg uid slot
    if decide (text ≠ []) && ! py_contains no_words_marker text then
      ([(uid, slot)], res.2, dictSet st (uid, slot) today)
    else ([], res.2, st)

/-- The time string a user configured for a slot. -/
def slot_time (r : SettingsRow) : Slot → PyStr
  | Slot.morning => r.morning_time
  | Slot.evening => r.evening_time

/-- One guarded slot check of the tick loop (scheduler.py, lines 137-147):
when the guard `c` (minute match and not already sent today) holds, invoke
the send routine on the current table and dedup states, otherwise leave
them untouched. -/
def slot_phase (msg : MessageProvider) (slot : Slot) (today nowTs : ℕ)
    (uid : ℤ) (c : Bool) (dbst : List SettingsRow × DedupMap) :
    List (ℤ × Slot) × List SettingsRow × DedupMap :=
  if c then send_slot_reminder msg slot today nowTs uid dbst.1 dbst.2
  else ([], dbst.1, dbst.2)

/-- The per-user body of the tick loop (scheduler.py, lines 128-150):
parse both configured times, and for each slot whose parsed minute equals
the current minute and whose dedup entry is not today's date, invoke the
send routine. -/
def scheduler_step (msg : MessageProvider) (today currentMinute nowTs : ℕ)
    (acc : List (ℤ × Slot) × List SettingsRow × DedupMap) (r : SettingsRow) :
    List (ℤ × Slot) × List SettingsRow × DedupMap :=
  let mp := parse_time r.morning_time
  let ep := parse_time r.evening_time
  let res1 := slot_phase msg Slot.morning today nowTs r.user_id
    (currentMinute == mp.1 * 60 + mp.2
      && ! (dictGet acc.2.2 (r.user_id, Slot.morning) == some today))
    (acc.2.1, acc.2.2)
  let res2 := slot_phase msg Slot.evening today nowTs r.user_id
    (currentMinute == ep.1 * 60 + ep.2
      && ! (dictGet res1.2.2 (r.user_id, Slot.evening) == some today))
    (res1.2.1, res1.2.2)
  (acc.1 ++ res1.1 ++ res2.1, res2.2)

/-- `ReminderScheduler._check_and_send_reminders` (scheduler.py, lines
107-161): select the users with `reminders_enabled = 1`, process each
of them, and finally purge every dedup entry whose date is before today. -/
def check_and_send_reminders (msg : MessageProvider)
    (today currentMinute nowTs : ℕ) (db : List SettingsRow) (st : DedupMap) :
    List (ℤ × Slot) × List SettingsRow × DedupMap :=
  let users := db.filter (fun r => r.reminders_enabled)
  let res := users.foldl (scheduler_step msg today currentMinute nowTs) ([], db, st)
  (res.1, res.2.1, res.2.2.filter (fun kv => ! decide (kv.2 < today)))

/-- A sequence of scheduler ticks within the calendar day `today`, at the
given minutes-of-day, accumulating all `Notifier.Send` events. -/
def run_ticks (msg : MessageProvider) (today : ℕ) (ticks : List ℕ) (nowTs : ℕ)
    (db : List SettingsRow) (st : DedupMap) :
    List (ℤ × Slot) × List SettingsRow × DedupMap :=
  ticks.foldl (fun acc t =>
    let res := check_and_send_reminders msg today t nowTs acc.2.1 acc.2.2
    (acc.1 ++ res.1, res.2)) ([], db, st)

/-! ## Theorems -/

/-- C3: `RecommendMode` (`get_reminder_mode_recommendation`) is a priority
cascade evaluated in this exact order on the stats returned by
`GetReminderStats`: `total_words == 0 → no_words`; else
`never_reviewed ≥ 10 → recent`; else
`never_reviewed < 5 ∧ total_words > 15 → old`; else
`avg_difficulty > 3 → difficult`; else `recent`.  The first condition that
holds determines the result, regardless of later conditions. -/
theorem c3_mode_cascade :
    (∀ db uid today, get_reminder_mode_recommendation db uid today =
        recommend_from_stats (get_reminder_stats db uid today)) ∧
    (∀ s : ReminderStats,
      (s.total_words = 0 → recommend_from_stats s = ReminderMode.no_words) ∧
      (s.total_words ≠ 0 → 10 ≤ s.never_reviewed →
        recommend_from_stats s = ReminderMode.mode_1_recent) ∧
      (s.total_words ≠ 0 → s.never_reviewed < 10 →
        s.never_reviewed < 5 → 15 < s.total_words →
        recommend_from_stats s = ReminderMode.mode_2_old) ∧
      (s.total_words ≠ 0 → s.never_reviewed < 10 →
        ¬ (s.never_reviewed < 5 ∧ 15 < s.total_words) → 3 < s.avg_difficulty →
        recommend_from_stats s = ReminderMode.mode_2_difficult) ∧
      (s.total_words ≠ 0 → s.never_reviewed < 10 →
        ¬ (s.never_reviewed < 5 ∧ 15 < s.total_words) → ¬ 3 < s.avg_difficulty →
        recommend_from_stats s = ReminderMode.mode_1_recent)) := by
  refine ⟨fun _ _ _ => rfl, fun s => ⟨?_, ?_, ?_, ?_, ?_⟩⟩ <;>
    intros <;> unfold recommend_from_stats <;>
    split_ifs <;> first | rfl | omega

/-- Witness for C3 at concrete statistics records, one per branch of the
cascade. -/
theorem c3_witness :
    get_reminder_mode_recommendation [] 1 0 =
      recommend_from_stats (get_reminder_stats [] 1 0) ∧
    recommend_from_stats ⟨0, 0, 0, 1, false⟩ = ReminderMode.no_words ∧
    recommend_from_stats ⟨20, 12, 0, 1, true⟩ = ReminderMode.mode_1_recent ∧
    recommend_from_stats ⟨20, 2, 0, 1, true⟩ = ReminderMode.mode_2_old ∧
    recommend_from_stats ⟨10, 7, 0, 4, true⟩ = ReminderMode.mode_2_difficult ∧
    recommend_from_stats ⟨10, 7, 0, 2, true⟩ = ReminderMode.mode_1_recent := by
  refine ⟨c3_mode_cascade.1 [] 1 0, ?_, ?_, ?_, ?_, ?_⟩
  · exact (c3_mode_cascade.2 ⟨0, 0, 0, 1, false⟩).1 rfl
  · exact (c3_mode_cascade.2 ⟨20, 12, 0, 1, true⟩).2.1 (by decide) (by decide)
  · exact (c3_mode_cascade.2 ⟨20, 2, 0, 1, true⟩).2.2.1 (by decide) (by decide)
      (by decide) (by decide)
  · exact (c3_mode_cascade.2 ⟨10, 7, 0, 4, true⟩).2.2.2.1 (by decide) (by decide)
      (by decide) (by decide)
  · exact (c3_mode_cascade.2 ⟨10, 7, 0, 2, true⟩).2.2.2.2 (by decide) (by decide)
      (by decide) (by decide)

/-- C4: `ValidateTime(s)` is true iff the trimmed string splits on `:`
into exactly two integer parts `H`, `M` with `0 ≤ H ≤ 23`, `0 ≤ M ≤ 59`;
it is a total function (never raises); the spec's examples hold; and the
two validators (`SettingsManager.validate_time` and
`WordDatabase._validate_time_format`) agree on every string. -/
theorem c4_validate_time :
    (∀ s : PyStr, validate_time s = true ↔
      ∃ hs ms : PyStr, ∃ h m : ℤ,
        pySplit ':' (pyStrip s) = [hs, ms] ∧
        pyParseInt hs = some h ∧ pyParseInt ms = some m ∧
        0 ≤ h ∧ h ≤ 23 ∧ 0 ≤ m ∧ m ≤ 59) ∧
    validate_time ['2', '3', ':', '5', '9'] = true ∧
    validate_time ['2', '4', ':', '0', '0'] = false ∧
    validate_time ['9', ':', '5'] = true ∧
    validate_time ['9', ':', '6', '0'] = false ∧
    validate_time [] = false ∧
    (∀ s : PyStr, validate_time_format s = validate_time s) := by
  refine ⟨fun s => ?_, by decide, by decide, by decide, by decide, by decide,
    fun s => rfl⟩
  constructor
  · intro hv
    unfold validate_time at hv
    split at hv
    case _ hs ms heq =>
      split at hv
      case _ h m hh hm =>
        simp only [Bool.and_eq_true, decide_eq_true_eq] at hv
        exact ⟨hs, ms, h, m, heq, hh, hm, hv.1.1, hv.1.2, hv.2.1, hv.2.2⟩
      case _ => exact absurd hv (by simp)
    case _ => exact absurd hv (by simp)
  · rintro ⟨hs, ms, h, m, heq, hh, hm, h1, h2, h3, h4⟩
    unfold validate_time
    rw [heq]
    simp [hh, hm, h1, h2, h3, h4]

/-- C5: `ready_for_reminder` is true iff `never_reviewed > 0` or
(`total_words > 0` and `reviewed_today < total_words / 3`, integer
division); and a user with zero stored words gets exactly
`{0, 0, 0, 1.0, false}`. -/
theorem c5_reminder_stats :
    (∀ db uid today,
      ((get_reminder_stats db uid today).ready_for_reminder = true ↔
        (0 < (get_reminder_stats db uid today).never_reviewed ∨
         (0 < (get_reminder_stats db uid today).total_words ∧
          (get_reminder_stats db uid today).reviewed_today <
            (get_reminder_stats db uid today).total_words / 3)))) ∧
    (∀ db uid today, (∀ r ∈ db, r.user_id ≠ uid) →
      get_reminder_stats db uid today =
        { total_words := 0, never_reviewed := 0, reviewed_today := 0,
          avg_difficulty := 1, ready_for_reminder := false }) := by
  constructor
  · intro db uid today
    unfold get_reminder_stats
    simp only []
    split_ifs with h
    · exact ⟨fun _ => Or.inr h, fun _ => rfl⟩
    · simp only [decide_eq_true_eq]
      constructor
      · intro hn; exact Or.inl hn
      · rintro (hn | ht)
        · exact hn
        · exact absurd ht h
  · intro db uid today hno
    have hfil : db.filter (fun r => r.user_id == uid) = [] := by
      rw [List.filter_eq_nil_iff]
      intro r hr
      simp only [beq_iff_eq]
      exact hno r hr
    unfold get_reminder_stats
    rw [hfil]
    norm_num [pyRound1, pyRoundHalfEven]

/-- Witness for C5: the empty store. -/
theorem c5_witness :
    get_reminder_stats [] 1 0 =
      { total_words := 0, never_reviewed := 0, reviewed_today := 0,
        avg_difficulty := 1, ready_for_reminder := false } :=
  c5_reminder_stats.2 [] 1 0 (by simp)

/-- C7 counterexample: `add_word` performs no user-id validation — with
`user_id = 0` it succeeds and inserts the row, instead of failing with
`InvalidArgument` and leaving storage untouched. -/
theorem c7_counterexample :
    add_word [] 0 ['c', 'a', 't'] ['к', 'о', 'т'] none none 0 =
      (true,
        [{ user_id := 0, english := ['c', 'a', 't'], russian := ['к', 'о', 'т'],
           transcription := none, topic := none, created_at := 0,
           last_reviewed_at := none, review_count := 0, difficulty := 1 }]) := by
  decide

/-- C7 (amended): `get_user_words`, `delete_word`, `get_user_settings` and
`update_user_settings` reject a non-positive user id with the zero-value
result and untouched storage, while `add_word` performs no user-id check:
with `user_id ≤ 0` and non-empty fields it still inserts and reports
success. -/
theorem c7_user_id_validation :
    (∀ db uid, uid ≤ 0 → get_user_words db uid = []) ∧
    (∀ db uid e, uid ≤ 0 → delete_word db uid e = (false, db)) ∧
    (∀ db uid now, uid ≤ 0 → get_user_settings db uid now =
      ({ morning_time := default_morning, evening_time := default_evening,
         reminders_enabled := true }, db)) ∧
    (∀ db uid mt et en now, uid ≤ 0 →
      update_user_settings db uid mt et en now = (false, db)) ∧
    (∀ db uid e ru now, uid ≤ 0 → e ≠ [] → ru ≠ [] →
      (add_word db uid e ru none none now).1 = true ∧
      { user_id := uid, english := pyStrip (pyLower e), russian := pyStrip ru,
        transcription := none, topic := none, created_at := now,
        last_reviewed_at := none, review_count := 0,
        difficulty := 1 } ∈ (add_word db uid e ru none none now).2) := by
  refine ⟨?_, ?_, ?_, ?_, ?_⟩
  · intro db uid h; unfold get_user_words; rw [if_pos h]
  · intro db uid e h; unfold delete_word; rw [if_pos h]
  · intro db uid now h; unfold get_user_settings; rw [if_pos h]
  · intro db uid mt et en now h; unfold update_user_settings; rw [if_pos h]
  · intro db uid e ru now _ he hr
    unfold add_word
    rw [if_neg (by simp [he, hr])]
    refine ⟨rfl, List.mem_append_right _ ?_⟩
    simp [stripOpt]

/-- Witness for C7 at `user_id = 0`. -/
theorem c7_witness :
    get_user_words [] 0 = [] ∧
    delete_word [] 0 ['c', 'a', 't'] = (false, []) ∧
    get_user_settings [] 0 0 =
      ({ morning_time := default_morning, evening_time := default_evening,
         reminders_enabled := true }, []) ∧
    update_user_settings [] 0 none none none 0 = (false, []) ∧
    (add_word [] 0 ['c', 'a', 't'] ['к', 'о', 'т'] none none 0).1 = true ∧
    { user_id := 0, english := pyStrip (pyLower ['c', 'a', 't']),
      russian := pyStrip ['к', 'о', 'т'], transcription := none, topic := none,
      created_at := 0, last_reviewed_at := none, review_count := 0,
      difficulty := 1 } ∈ (add_word [] 0 ['c', 'a', 't'] ['к', 'о', 'т'] none none 0).2 :=
  ⟨c7_user_id_validation.1 [] 0 (by decide),
   c7_user_id_validation.2.1 [] 0 ['c', 'a', 't'] (by decide),
   c7_user_id_validation.2.2.1 [] 0 0 (by decide),
   c7_user_id_validation.2.2.2.1 [] 0 none none none 0 (by decide),
   c7_user_id_validation.2.2.2.2 [] 0 ['c', 'a', 't'] ['к', 'о', 'т'] 0
     (by decide) (by decide) (by decide)⟩

/-- C8: the emptiness check of `add_word` runs before trimming, so a
whitespace-only english argument is accepted and the persisted row has the
empty string as its english field — the code violates the stated
invariant that english is never empty after a successful write. -/
theorem c8_whitespace_english_persisted :
    ([' '] : PyStr) ≠ [] ∧ pyStrip [' '] = [] ∧
    add_word [] 1 [' '] ['к', 'о', 'т'] none none 0 =
      (true,
        [{ user_id := 1, english := [], russian := ['к', 'о', 'т'],
           transcription := none, topic := none, created_at := 0,
           last_reviewed_at := none, review_count := 0, difficulty := 1 }]) := by
  decide

/-- C9 counterexample: a supplied empty-string `morning_time` fails HH:MM
validation, yet `update_user_settings` succeeds (it even refreshes
`updated_at`), because the Python truthiness guard skips validation of
empty strings — contradicting "every supplied time that fails validation
makes the call return failure with the row unchanged". -/
theorem c9_counterexample :
    validate_time_format [] = false ∧
    update_user_settings
        [{ user_id := 1, morning_time := ['0', '8', ':', '0', '0'],
           evening_time := ['2', '1', ':', '0', '0'], reminders_enabled := true,
           created_at := 0, updated_at := 0 }]
        1 (some []) none none 5 =
      (true,
        [{ user_id := 1, morning_time := ['0', '8', ':', '0', '0'],
           evening_time := ['2', '1', ':', '0', '0'], reminders_enabled := true,
           created_at := 0, updated_at := 5 }]) := by
  decide

/-- C9 (amended): every supplied non-empty time string is validated before
any write (invalid ⇒ failure and untouched table, no partial write); a
supplied empty string is treated like an omitted field; omitted fields
retain their previous values; and a first-ever write inserts a full row
with the provided values or the defaults 09:00 / 20:00 / enabled. -/
theorem c9_update_settings :
    (∀ db uid s et en now, s ≠ [] → validate_time_format s = false →
      update_user_settings db uid (some s) et en now = (false, db)) ∧
    (∀ db uid mt s en now, bad_time mt = false → s ≠ [] →
      validate_time_format s = false →
      update_user_settings db uid mt (some s) en now = (false, db)) ∧
    (∀ db uid r now, 0 < uid → db.find? (fun x => x.user_id == uid) = some r →
      update_user_settings db uid none none none now =
        (true, db.map (fun x =>
          if x.user_id == uid then
            { x with morning_time := r.morning_time,
                     evening_time := r.evening_time,
                     reminders_enabled := r.reminders_enabled,
                     updated_at := now }
          else x))) ∧
    (∀ db uid now, 0 < uid → db.find? (fun x => x.user_id == uid) = none →
      update_user_settings db uid none none none now =
        (true, db ++ [{ user_id := uid, morning_time := default_morning,
                        evening_time := default_evening, reminders_enabled := true,
                        created_at := now, updated_at := now }])) ∧
    (∀ db uid m e b now, 0 < uid → db.find? (fun x => x.user_id == uid) = none →
      validate_time_format m = true → validate_time_format e = true →
      update_user_settings db uid (some m) (some e) (some b) now =
        (true, db ++ [{ user_id := uid, morning_time := m, evening_time := e,
                        reminders_enabled := b, created_at := now,
                        updated_at := now }])) := by
  have hempty : validate_time_format [] = false := by decide
  refine ⟨?_, ?_, ?_, ?_, ?_⟩
  · intro db uid s et en now hs hv
    unfold update_user_settings
    split_ifs with h1 h2 <;> try rfl
    exact absurd (by simp [bad_time, hs, hv]) h2
  · intro db uid mt s en now hmt hs hv
    unfold update_user_settings
    split_ifs with h1 h2 h3 <;> try rfl
    exact absurd (by simp [bad_time, hs, hv]) h3
  · intro db uid r now hu hfind
    unfold update_user_settings
    rw [if_neg (by omega), if_neg (by simp [bad_time]), if_neg (by simp [bad_time]),
      hfind]
  · intro db uid now hu hfind
    unfold update_user_settings
    rw [if_neg (by omega), if_neg (by simp [bad_time]), if_neg (by simp [bad_time]),
      hfind]
  · intro db uid m e b now hu hfind hm he
    have hm0 : m ≠ [] := by rintro rfl; rw [hempty] at hm; exact absurd hm (by simp)
    have he0 : e ≠ [] := by rintro rfl; rw [hempty] at he; exact absurd he (by simp)
    unfold update_user_settings
    rw [if_neg (by omega), if_neg (by simp [bad_time, hm]),
      if_neg (by simp [bad_time, he]), hfind]
    simp [hm0, he0]

/-- Witness for C9: invalid times rejected without a write; omitted fields
retained; first write with defaults and with provided values. -/
theorem c9_witness :
    update_user_settings [] 1 (some ['2', '5', ':', '0', '0']) none none 0 = (false, []) ∧
    update_user_settings [] 1 none (some ['9', ':', '6', '0']) none 0 = (false, []) ∧
    update_user_settings
        [{ user_id := 1, morning_time := ['0', '8', ':', '0', '0'],
           evening_time := ['2', '1', ':', '0', '0'], reminders_enabled := false,
           created_at := 0, updated_at := 0 }] 1 none none none 7 =
      (true,
        [{ user_id := 1, morning_time := ['0', '8', ':', '0', '0'],
           evening_time := ['2', '1', ':', '0', '0'], reminders_enabled := false,
           created_at := 0, updated_at := 7 }]) ∧
    update_user_settings [] 1 none none none 3 =
      (true, [{ user_id := 1, morning_time := default_morning,
                evening_time := default_evening, reminders_enabled := true,
                created_at := 3, updated_at := 3 }]) ∧
    update_user_settings [] 2 (some ['0', '7', ':', '3', '0'])
        (some ['1', '9', ':', '1', '5']) (some false) 4 =
      (true, [{ user_id := 2, morning_time := ['0', '7', ':', '3', '0'],
                evening_time := ['1', '9', ':', '1', '5'], reminders_enabled := false,
                created_at := 4, updated_at := 4 }]) := by
  refine ⟨?_, ?_, ?_, ?_, ?_⟩
  · exact c9_update_settings.1 [] 1 ['2', '5', ':', '0', '0'] none none 0
      (by decide) (by decide)
  · exact c9_update_settings.2.1 [] 1 none ['9', ':', '6', '0'] none 0
      (by decide) (by decide) (by decide)
  · have h := c9_update_settings.2.2.1
      [{ user_id := 1, morning_time := ['0', '8', ':', '0', '0'],
         evening_time := ['2', '1', ':', '0', '0'], reminders_enabled := false,
         created_at := 0, updated_at := 0 }] 1
      { user_id := 1, morning_time := ['0', '8', ':', '0', '0'],
        evening_time := ['2', '1', ':', '0', '0'], reminders_enabled := false,
        created_at := 0, updated_at := 0 } 7 (by decide) (by decide)
    simpa using h
  · have h := c9_update_settings.2.2.2.1 [] 1 3 (by decide) (by decide)
    simpa using h
  · exact c9_update_settings.2.2.2.2 [] 2 ['0', '7', ':', '3', '0']
      ['1', '9', ':', '1', '5'] false 4 (by decide) (by decide) (by decide)
      (by decide)

/-- After an `add_word`, the rows holding the inserted key are exactly the
freshly inserted row: `INSERT OR REPLACE` removed every other one. -/
theorem filter_key_add_word (db : List WordRow) (uid : ℤ) (e ru : PyStr)
    (tr tp : Option PyStr) (now : ℕ) (he : e ≠ []) (hr : ru ≠ []) :
    (add_word db uid e ru tr tp now).2.filter (sameKey uid (pyStrip (pyLower e))) =
      [{ user_id := uid, english := pyStrip (pyLower e), russian := pyStrip ru,
         transcription := stripOpt tr, topic := stripOpt tp, created_at := now,
         last_reviewed_at := none, review_count := 0, difficulty := 1 }] := by
  unfold add_word
  rw [if_neg (by simp [he, hr])]
  rw [List.filter_append, List.filter_filter]
  rw [List.filter_eq_nil_iff.mpr (fun a _ => by
    cases h : sameKey uid (pyStrip (pyLower e)) a <;> simp [h])]
  simp [sameKey]

/-- C6: re-adding an existing key overwrites rather than merges: after
`add_word(u, "cat", "кот1")` then `add_word(u, "CAT", "кот2")` exactly one
row holds the key `cat`, carrying russian `кот2` and fresh new-row
defaults, and `get_user_words` observes exactly that one entry. -/
theorem c6_upsert_overwrite :
    ∀ db uid t1 t2, 0 < uid →
    (add_word db uid ['c', 'a', 't'] ['к', 'о', 'т', '1'] none none t1).1 = true ∧
    (add_word (add_word db uid ['c', 'a', 't'] ['к', 'о', 'т', '1'] none none t1).2
        uid ['C', 'A', 'T'] ['к', 'о', 'т', '2'] none none t2).1 = true ∧
    ((add_word (add_word db uid ['c', 'a', 't'] ['к', 'о', 'т', '1'] none none t1).2
        uid ['C', 'A', 'T'] ['к', 'о', 'т', '2'] none none t2).2.filter
      (sameKey uid ['c', 'a', 't']) =
      [{ user_id := uid, english := ['c', 'a', 't'], russian := ['к', 'о', 'т', '2'],
         transcription := none, topic := none, created_at := t2,
         last_reviewed_at := none, review_count := 0, difficulty := 1 }]) ∧
    ((get_user_words
        (add_word (add_word db uid ['c', 'a', 't'] ['к', 'о', 'т', '1'] none none t1).2
          uid ['C', 'A', 'T'] ['к', 'о', 'т', '2'] none none t2).2 uid).filter
      (fun w => w.1 == ['c', 'a', 't']) =
      [(['c', 'a', 't'], ['к', 'о', 'т', '2'], none, none)]) := by
  intro db uid t1 t2 hu
  have hkey2 : pyStrip (pyLower ['C', 'A', 'T']) = ['c', 'a', 't'] := by decide
  have hfil := filter_key_add_word
    (add_word db uid ['c', 'a', 't'] ['к', 'о', 'т', '1'] none none t1).2
    uid ['C', 'A', 'T'] ['к', 'о', 'т', '2'] none none t2 (by decide) (by decide)
  rw [hkey2] at hfil
  have hfil' : (add_word (add_word db uid ['c', 'a', 't'] ['к', 'о', 'т', '1'] none none t1).2
      uid ['C', 'A', 'T'] ['к', 'о', 'т', '2'] none none t2).2.filter
        (sameKey uid ['c', 'a', 't']) =
      [{ user_id := uid, english := ['c', 'a', 't'], russian := ['к', 'о', 'т', '2'],
         transcription := none, topic := none, created_at := t2,
         last_reviewed_at := none, review_count := 0, difficulty := 1 }] := by
    rw [hfil]; simp [stripOpt]; decide
  refine ⟨rfl, rfl, hfil', ?_⟩
  set db2 := (add_word (add_word db uid ['c', 'a', 't'] ['к', 'о', 'т', '1'] none none t1).2
      uid ['C', 'A', 'T'] ['к', 'о', 'т', '2'] none none t2).2 with hdb2
  unfold get_user_words
  rw [if_neg (by omega)]
  set S := db2.filter (fun r => r.user_id == uid) with hS
  set tup := fun r : WordRow => (r.english, r.russian, r.transcription, r.topic) with htup
  set p := fun w : PyStr × PyStr × Option PyStr × Option PyStr =>
    w.1 == ['c', 'a', 't'] with hp
  have hperm : (((S.mergeSort created_desc).map tup).filter p).Perm
      ((S.map tup).filter p) :=
    List.Perm.filter p ((List.mergeSort_perm S created_desc).map tup)
  have hflat : (S.map tup).filter p = [(['c', 'a', 't'], ['к', 'о', 'т', '2'], none, none)] := by
    rw [List.filter_map, hS, List.filter_filter]
    have hcong : db2.filter (fun a => (p ∘ tup) a && (fun r : WordRow => r.user_id == uid) a) =
        db2.filter (sameKey uid ['c', 'a', 't']) := by
      apply List.filter_congr
      intro x _
      simp [hp, htup, sameKey, Bool.and_comm]
    rw [hcong, hfil']
    simp [htup]
  rw [hflat] at hperm
  exact List.perm_singleton.mp hperm

/-- Witness for C6 at `user_id = 1`, insertion times 0 and 1. -/
theorem c6_witness :
    ((add_word (add_word [] 1 ['c', 'a', 't'] ['к', 'о', 'т', '1'] none none 0).2
        1 ['C', 'A', 'T'] ['к', 'о', 'т', '2'] none none 1).2.filter
      (sameKey 1 ['c', 'a', 't']) =
      [{ user_id := 1, english := ['c', 'a', 't'], russian := ['к', 'о', 'т', '2'],
         transcription := none, topic := none, created_at := 1,
         last_reviewed_at := none, review_count := 0, difficulty := 1 }]) ∧
    ((get_user_words
        (add_word (add_word [] 1 ['c', 'a', 't'] ['к', 'о', 'т', '1'] none none 0).2
          1 ['C', 'A', 'T'] ['к', 'о', 'т', '2'] none none 1).2 1).filter
      (fun w => w.1 == ['c', 'a', 't']) =
      [(['c', 'a', 't'], ['к', 'о', 'т', '2'], none, none)]) :=
  ⟨(c6_upsert_overwrite [] 1 0 1 (by decide)).2.2.1,
   (c6_upsert_overwrite [] 1 0 1 (by decide)).2.2.2⟩

/-- C1: `mark_word_reviewed` on a stored lowercase key updates exactly the
matching row — `last_reviewed_at := now`, `review_count + 1`, difficulty
`max(1, d-1)` on correct and `min(10, d+1)` on incorrect — and returns
`False` leaving the table unchanged when no row matches; the difficulty
update keeps every value that starts in `[1, 10]` inside `[1, 10]`, with
repeated correct reviews pinned at 1 and repeated incorrect ones at 10. -/
theorem c1_mark_word_reviewed :
    (∀ db uid e correct now r,
      r ∈ db → r.user_id = uid → r.english = e → pyLower e = e →
      (∀ x ∈ db, x.user_id = uid → x.english = e → x = r) →
      mark_word_reviewed db uid e correct now =
        (true, db.map (fun x =>
          if sameKey uid e x then
            { x with last_reviewed_at := some now,
                     review_count := x.review_count + 1,
                     difficulty := new_difficulty correct r.difficulty }
          else x))) ∧
    (∀ db uid e correct now,
      (∀ x ∈ db, ¬ (x.user_id = uid ∧ x.english = pyLower e)) →
      mark_word_reviewed db uid e correct now = (false, db)) ∧
    (∀ d : ℤ, new_difficulty true d = max 1 (d - 1) ∧
      new_difficulty false d = min 10 (d + 1)) ∧
    (∀ d : ℤ, 1 ≤ d → d ≤ 10 → ∀ bs : List Bool,
      1 ≤ bs.foldl (fun x b => new_difficulty b x) d ∧
      bs.foldl (fun x b => new_difficulty b x) d ≤ 10) ∧
    (∀ n : ℕ, (List.replicate n true).foldl (fun x b => new_difficulty b x) 1 = 1) ∧
    (∀ n : ℕ, (List.replicate n false).foldl (fun x b => new_difficulty b x) 10 = 10) := by
  refine ⟨?_, ?_, fun d => ⟨rfl, rfl⟩, ?_, ?_, ?_⟩
  · intro db uid e correct now r hmem hru hre hlow huniq
    unfold mark_word_reviewed
    rw [hlow]
    have hkey : sameKey uid e r = true := by simp [sameKey, hru, hre]
    have hsome : (db.find? (sameKey uid e)).isSome := by
      rw [List.find?_isSome]
      exact ⟨r, hmem, hkey⟩
    obtain ⟨r', hr'⟩ := Option.isSome_iff_exists.mp hsome
    have hr'mem := List.mem_of_find?_eq_some hr'
    have hr'key := List.find?_some hr'
    simp only [sameKey, Bool.and_eq_true, beq_iff_eq] at hr'key
    have hrr : r' = r := huniq r' hr'mem hr'key.1 hr'key.2
    simp only [hr', hrr]
  · intro db uid e correct now hnone
    unfold mark_word_reviewed
    have hfind : db.find? (sameKey uid (pyLower e)) = none := by
      rw [List.find?_eq_none]
      intro x hx
      simp only [sameKey, Bool.and_eq_true, beq_iff_eq]
      intro hcontra
      exact hnone x hx hcontra
    simp only [hfind]
  · intro d h1 h10 bs
    induction bs generalizing d with
    | nil => exact ⟨h1, h10⟩
    | cons b bs ih =>
      simp only [List.foldl_cons]
      apply ih
      · cases b <;> simp [new_difficulty] <;> omega
      · cases b <;> simp [new_difficulty] <;> omega
  · intro n
    induction n with
    | zero => rfl
    | succ k ih => rw [List.replicate_succ, List.foldl_cons]; simpa [new_difficulty] using ih
  · intro n
    induction n with
    | zero => rfl
    | succ k ih => rw [List.replicate_succ, List.foldl_cons]; simpa [new_difficulty] using ih

/-- Witness for C1: a stored word reviewed correctly, a miss on the empty
store, and concrete difficulty sequences. -/
theorem c1_witness :
    mark_word_reviewed
        [{ user_id := 1, english := ['c', 'a', 't'], russian := ['к', 'о', 'т'],
           transcription := none, topic := none, created_at := 0,
           last_reviewed_at := none, review_count := 0, difficulty := 5 }]
        1 ['c', 'a', 't'] true 7 =
      (true,
        [{ user_id := 1, english := ['c', 'a', 't'], russian := ['к', 'о', 'т'],
           transcription := none, topic := none, created_at := 0,
           last_reviewed_at := none, review_count := 0,
           difficulty := 5 }].map (fun x =>
          if sameKey 1 ['c', 'a', 't'] x then
            { x with last_reviewed_at := some 7, review_count := x.review_count + 1,
                     difficulty := new_difficulty true 5 }
          else x)) ∧
    mark_word_reviewed [] 1 ['d', 'o', 'g'] false 7 = (false, []) ∧
    (1 ≤ [true, false, false, true].foldl (fun x b => new_difficulty b x) 3 ∧
      [true, false, false, true].foldl (fun x b => new_difficulty b x) 3 ≤ 10) ∧
    (List.replicate 3 true).foldl (fun x b => new_difficulty b x) 1 = 1 ∧
    (List.replicate 3 false).foldl (fun x b => new_difficulty b x) 10 = 10 :=
  ⟨c1_mark_word_reviewed.1
      [{ user_id := 1, english := ['c', 'a', 't'], russian := ['к', 'о', 'т'],
         transcription := none, topic := none, created_at := 0,
         last_reviewed_at := none, review_count := 0, difficulty := 5 }]
      1 ['c', 'a', 't'] true 7
      { user_id := 1, english := ['c', 'a', 't'], russian := ['к', 'о', 'т'],
        transcription := none, topic := none, created_at := 0,
        last_reviewed_at := none, review_count := 0, difficulty := 5 }
      (by simp) rfl rfl (by decide) (by decide),
   c1_mark_word_reviewed.2.1 [] 1 ['d', 'o', 'g'] false 7 (by simp),
   c1_mark_word_reviewed.2.2.2.1 3 (by decide) (by decide) [true, false, false, true],
   c1_mark_word_reviewed.2.2.2.2.1 3,
   c1_mark_word_reviewed.2.2.2.2.2 3⟩

theorem pyToLower_of_space {c : Char} (h : pyIsSpace c = true) : pyToLower c = c := by
  simp only [pyIsSpace, Bool.or_eq_true, decide_eq_true_eq] at h
  rcases h with ⟨⟨⟨⟨h | h⟩ | h⟩ | h⟩ | h⟩ | h <;> subst h <;> decide

theorem pyLower_of_space {w : PyStr} (h : ∀ c ∈ w, pyIsSpace c = true) :
    pyLower w = w := by
  unfold pyLower
  rw [List.map_congr_left (fun c hc => pyToLower_of_space (h c hc)), List.map_id']

theorem dropWhile_space_append {w : PyStr} (y : PyStr)
    (h : ∀ c ∈ w, pyIsSpace c = true) :
    (w ++ y).dropWhile pyIsSpace = y.dropWhile pyIsSpace := by
  induction w with
  | nil => rfl
  | cons c w ih =>
    rw [List.cons_append, List.dropWhile_cons, h c (List.mem_cons_self c w)]
    exact ih (fun d hd => h d (List.mem_cons_of_mem c hd))

/-- Stripping ignores all-whitespace prefixes and suffixes. -/
theorem pyStrip_space_surround {w1 w2 : PyStr} (y : PyStr)
    (h1 : ∀ c ∈ w1, pyIsSpace c = true) (h2 : ∀ c ∈ w2, pyIsSpace c = true) :
    pyStrip (w1 ++ y ++ w2) = pyStrip y := by
  unfold pyStrip
  rw [List.append_assoc, dropWhile_space_append (y ++ w2) h1]
  rw [List.dropWhile_append]
  by_cases hy : (y.dropWhile pyIsSpace).isEmpty
  · rw [if_pos hy]
    simp only [List.isEmpty_iff] at hy
    rw [hy, show List.dropWhile pyIsSpace w2 = [] from
      List.dropWhile_eq_nil_iff.mpr (fun c hc => h2 c hc)]
  · rw [if_neg hy]
    rw [List.reverse_append,
      dropWhile_space_append _ (fun c hc => h2 c (List.mem_reverse.mp hc))]

theorem length_pyStrip_le (s : PyStr) : (pyStrip s).length ≤ s.length := by
  unfold pyStrip
  rw [List.length_reverse]
  calc ((s.dropWhile pyIsSpace).reverse.dropWhile pyIsSpace).length
      ≤ (s.dropWhile pyIsSpace).reverse.length :=
        (List.dropWhile_sublist _).length_le
    _ = (s.dropWhile pyIsSpace).length := List.length_reverse _
    _ ≤ s.length := (List.dropWhile_sublist _).length_le

theorem pyLower_append (a b : PyStr) : pyLower (a ++ b) = pyLower a ++ pyLower b :=
  List.map_append _ _ _

/-- C10: `mark_word_reviewed` lowercases its key but does not trim it,
while `add_word` stores keys lowercase-trimmed; so looking a stored
trimmed key up with any surrounding whitespace added yields `False` and
leaves the table (hence the stored row) unchanged. -/
theorem c10_mark_reviewed_untrimmed_key :
    ∀ db uid e w1 w2 correct now r,
      r ∈ db → r.user_id = uid → r.english = e →
      (∀ x ∈ db, pyStrip x.english = x.english) →
      (∀ c ∈ w1, pyIsSpace c = true) → (∀ c ∈ w2, pyIsSpace c = true) →
      w1 ++ w2 ≠ [] →
      mark_word_reviewed db uid (w1 ++ e ++ w2) correct now = (false, db) := by
  intro db uid e w1 w2 correct now r hmem hru hre htrim hw1 hw2 hne
  have hlow : pyLower (w1 ++ e ++ w2) = w1 ++ pyLower e ++ w2 := by
    rw [pyLower_append, pyLower_append, pyLower_of_space hw1, pyLower_of_space hw2]
  have hstrip_key : pyStrip (w1 ++ pyLower e ++ w2) = pyStrip (pyLower e) :=
    pyStrip_space_surround (pyLower e) hw1 hw2
  have hlen : (pyStrip (pyLower e)).length ≤ e.length := by
    have h := length_pyStrip_le (pyLower e)
    simpa [pyLower] using h
  have hnone : List.find? (sameKey uid (pyLower (w1 ++ e ++ w2))) db = none := by
    rw [List.find?_eq_none]
    intro x hx
    simp only [sameKey, Bool.and_eq_true, beq_iff_eq, not_and]
    intro _ hxe
    have hxtrim := htrim x hx
    rw [hxe, hlow, hstrip_key] at hxtrim
    have hlens := congrArg List.length hxtrim
    have h1 : (w1 ++ pyLower e ++ w2).length = w1.length + e.length + w2.length := by
      simp [pyLower]
      omega
    have h2 : 0 < w1.length + w2.length := by
      cases w1 with
      | nil =>
        cases w2 with
        | nil => exact absurd rfl hne
        | cons c t => simp
      | cons c t => simp
    rw [h1] at hlens
    omega
  unfold mark_word_reviewed
  simp only [hnone]

/-- Witness for C10: the stored key `cat` looked up as `" cat"`. -/
theorem c10_witness :
    mark_word_reviewed
        [{ user_id := 1, english := ['c', 'a', 't'], russian := ['к', 'о', 'т'],
           transcription := none, topic := none, created_at := 0,
           last_reviewed_at := none, review_count := 2, difficulty := 4 }]
        1 ([' '] ++ ['c', 'a', 't'] ++ []) true 9 =
      (false,
        [{ user_id := 1, english := ['c', 'a', 't'], russian := ['к', 'о', 'т'],
           transcription := none, topic := none, created_at := 0,
           last_reviewed_at := none, review_count := 2, difficulty := 4 }]) :=
  c10_mark_reviewed_untrimmed_key
    [{ user_id := 1, english := ['c', 'a', 't'], russian := ['к', 'о', 'т'],
       transcription := none, topic := none, created_at := 0,
       last_reviewed_at := none, review_count := 2, difficulty := 4 }]
    1 ['c', 'a', 't'] [' '] [] true 9
    { user_id := 1, english := ['c', 'a', 't'], russian := ['к', 'о', 'т'],
      transcription := none, topic := none, created_at := 0,
      last_reviewed_at := none, review_count := 2, difficulty := 4 }
    (by simp) rfl rfl (by decide) (by decide) (by decide) (by decide)

/-! ### Scheduler lemmas (C2) -/

theorem dictGet_dictSet_self (m : DedupMap) (k : ℤ × Slot) (v : ℕ) :
    dictGet (dictSet m k v) k = some v := by
  induction m with
  | nil => simp [dictSet, dictGet]
  | cons kv rest ih =>
    by_cases h : kv.1 = k
    · simp [dictSet, dictGet, h]
    · have hb : (kv.1 == k) = false := beq_eq_false_iff_ne.mpr h
      simp [dictSet, dictGet, hb, ih]

theorem dictGet_dictSet_ne (m : DedupMap) (k k' : ℤ × Slot) (v : ℕ)
    (h : k' ≠ k) : dictGet (dictSet m k v) k' = dictGet m k' := by
  induction m with
  | nil =>
    have hb : (k == k') = false := beq_eq_false_iff_ne.mpr (Ne.symm h)
    simp [dictSet, dictGet, hb]
  | cons kv rest ih =>
    by_cases hk : kv.1 = k
    · have hb : (k == k') = false := beq_eq_false_iff_ne.mpr (Ne.symm h)
      have hb2 : (kv.1 == k') = false := by
        rw [hk]; exact hb
      simp [dictSet, dictGet, hk, hb, hb2]
    · have hb : (kv.1 == k) = false := beq_eq_false_iff_ne.mpr hk
      by_cases hk' : kv.1 = k'
      · have hb' : (kv.1 == k') = true := beq_iff_eq.mpr hk'
        simp [dictSet, dictGet, hb, hb']
      · have hb' : (kv.1 == k') = false := beq_eq_false_iff_ne.mpr hk'
        simp [dictSet, dictGet, hb, hb', ih]

/-- The end-of-tick purge keeps an entry recorded for today. -/
theorem dictGet_purge_of_today (m : DedupMap) (k : ℤ × Slot) (today : ℕ)
    (h : dictGet m k = some today) :
    dictGet (m.filter (fun kv => ! decide (kv.2 < today))) k = some today := by
  induction m with
  | nil => simp [dictGet] at h
  | cons kv rest ih =>
    by_cases hk : kv.1 = k
    · have hb : (kv.1 == k) = true := beq_iff_eq.mpr hk
      rw [dictGet, if_pos hb] at h
      have hv : kv.2 = today := by injection h
      rw [List.filter_cons, if_pos (by simp [hv])]
      rw [dictGet, if_pos hb, hv]
    · have hb : (kv.1 == k) = false := beq_eq_false_iff_ne.mpr hk
      rw [dictGet, hb] at h
      simp only [Bool.false_eq_true, if_false] at h
      rw [List.filter_cons]
      by_cases hkeep : (! decide (kv.2 < today)) = true
      · rw [if_pos hkeep, dictGet, hb]
        simp only [Bool.false_eq_true, if_false]
        exact ih h
      · rw [if_neg hkeep]
        exact ih h

theorem find?_isSome_of_mem {db : List SettingsRow} {r : SettingsRow} (h : r ∈ db) :
    (db.find? (fun x => x.user_id == r.user_id)).isSome := by
  rw [List.find?_isSome]
  exact ⟨r, h, by simp⟩

theorem get_user_settings_db_eq (db : List SettingsRow) (uid : ℤ) (now : ℕ)
    (h : uid ≤ 0 ∨ (db.find? (fun x => x.user_id == uid)).isSome) :
    (get_user_settings db uid now).2 = db := by
  unfold get_user_settings
  rcases h with h | h
  · rw [if_pos h]
  · by_cases h0 : uid ≤ 0
    · rw [if_pos h0]
    · rw [if_neg h0]
      obtain ⟨x, hx⟩ := Option.isSome_iff_exists.mp h
      rw [hx]

theorem find?_eq_of_nodup (db : List SettingsRow) (r : SettingsRow)
    (hmem : r ∈ db) (hnd : (db.map (fun x => x.user_id)).Nodup) :
    db.find? (fun x => x.user_id == r.user_id) = some r := by
  induction db with
  | nil => cases hmem
  | cons a rest ih =>
    rcases List.mem_cons.mp hmem with h | h
    · subst h
      exact List.find?_cons_of_pos _ (by simp)
    · have ha : a.user_id ≠ r.user_id := by
        intro heq
        rw [List.map_cons, List.nodup_cons] at hnd
        exact hnd.1 (heq ▸ List.mem_map_of_mem (fun x => x.user_id) h)
      rw [List.find?_cons_of_neg _ (by simp [ha])]
      exact ih h (by rw [List.map_cons, List.nodup_cons] at hnd; exact hnd.2)

theorem get_user_settings_enabled (db : List SettingsRow) (r : SettingsRow)
    (now : ℕ) (hmem : r ∈ db) (hnd : (db.map (fun x => x.user_id)).Nodup)
    (hen : r.reminders_enabled = true) :
    (get_user_settings db r.user_id now).1.reminders_enabled = true := by
  unfold get_user_settings
  by_cases h0 : r.user_id ≤ 0
  · rw [if_pos h0]
  · rw [if_neg h0, find?_eq_of_nodup db r hmem hnd]
    exact hen

/-- Case summary of one `send_slot_reminder` call: either nothing was sent
and the dedup table is untouched, or exactly the one event was sent, it
was not yet marked today, and its dedup entry was set to today. -/
theorem send_slot_cases (msg : MessageProvider) (slot : Slot) (today nowTs : ℕ)
    (uid : ℤ) (db : List SettingsRow) (st : DedupMap) :
    ((send_slot_reminder msg slot today nowTs uid db st).1 = [] ∧
     (send_slot_reminder msg slot today nowTs uid db st).2.2 = st) ∨
    ((send_slot_reminder msg slot today nowTs uid db st).1 = [(uid, slot)] ∧
     dictGet st (uid, slot) ≠ some today ∧
     (send_slot_reminder msg slot today nowTs uid db st).2.2 =
       dictSet st (uid, slot) today) := by
  unfold send_slot_reminder
  by_cases h1 : (! (get_user_settings db uid nowTs).1.reminders_enabled) = true
  · rw [if_pos h1]; exact Or.inl ⟨rfl, rfl⟩
  · rw [if_neg h1]
    by_cases h2 : (dictGet st (uid, slot) == some today) = true
    · rw [if_pos h2]; exact Or.inl ⟨rfl, rfl⟩
    · rw [if_neg h2]
      by_cases h3 : (decide (msg uid slot ≠ []) &&
          ! py_contains no_words_marker (msg uid slot)) = true
      · rw [if_pos h3]
        exact Or.inr ⟨rfl, fun hc => h2 (by simp [hc]), rfl⟩
      · rw [if_neg h3]; exact Or.inl ⟨rfl, rfl⟩

theorem send_slot_db_eq (msg : MessageProvider) (slot : Slot) (today nowTs : ℕ)
    (uid : ℤ) (db : List SettingsRow) (st : DedupMap)
    (h : uid ≤ 0 ∨ (db.find? (fun x => x.user_id == uid)).isSome) :
    (send_slot_reminder msg slot today nowTs uid db st).2.1 = db := by
  unfold send_slot_reminder
  have hd := get_user_settings_db_eq db uid nowTs h
  by_cases h1 : (! (get_user_settings db uid nowTs).1.reminders_enabled) = true
  · rw [if_pos h1]; exact hd
  · rw [if_neg h1]
    by_cases h2 : (dictGet st (uid, slot) == some today) = true
    · rw [if_pos h2]; exact hd
    · rw [if_neg h2]
      by_cases h3 : (decide (msg uid slot ≠ []) &&
          ! py_contains no_words_marker (msg uid slot)) = true
      · rw [if_pos h3]; exact hd
      · rw [if_neg h3]; exact hd

theorem send_slot_fires (msg : MessageProvider) (slot : Slot) (today nowTs : ℕ)
    (uid : ℤ) (db : List SettingsRow) (st : DedupMap)
    (hen : (get_user_settings db uid nowTs).1.reminders_enabled = true)
    (hnot : dictGet st (uid, slot) ≠ some today)
    (hmsg : msg uid slot ≠ [])
    (hmark : py_contains no_words_marker (msg uid slot) = false) :
    (send_slot_reminder msg slot today nowTs uid db st).1 = [(uid, slot)] ∧
    (send_slot_reminder msg slot today nowTs uid db st).2.2 =
      dictSet st (uid, slot) today := by
  unfold send_slot_reminder
  rw [if_neg (by simp [hen]), if_neg (by simp [hnot]),
    if_pos (by simp [hmsg, hmark])]
  exact ⟨rfl, rfl⟩

theorem phase_cases (msg : MessageProvider) (slot : Slot) (today nowTs : ℕ)
    (uid : ℤ) (c : Bool) (dbst : List SettingsRow × DedupMap) :
    ((slot_phase msg slot today nowTs uid c dbst).1 = [] ∧
     (slot_phase msg slot today nowTs uid c dbst).2.2 = dbst.2) ∨
    ((slot_phase msg slot today nowTs uid c dbst).1 = [(uid, slot)] ∧
     dictGet dbst.2 (uid, slot) ≠ some today ∧
     (slot_phase msg slot today nowTs uid c dbst).2.2 =
       dictSet dbst.2 (uid, slot) today) := by
  unfold slot_phase
  cases c
  · exact Or.inl ⟨rfl, rfl⟩
  · simpa using send_slot_cases msg slot today nowTs uid dbst.1 dbst.2

theorem phase_db (msg : MessageProvider) (slot : Slot) (today nowTs : ℕ)
    (uid : ℤ) (c : Bool) (dbst : List SettingsRow × DedupMap)
    (h : uid ≤ 0 ∨ (dbst.1.find? (fun x => x.user_id == uid)).isSome) :
    (slot_phase msg slot today nowTs uid c dbst).2.1 = dbst.1 := by
  unfold slot_phase
  cases c
  · rfl
  · simpa using send_slot_db_eq msg slot today nowTs uid dbst.1 dbst.2 h

theorem phase_key (msg : MessageProvider) (slot : Slot) (today nowTs : ℕ)
    (uid : ℤ) (c : Bool) (dbst : List SettingsRow × DedupMap) (k : ℤ × Slot) :
    (((slot_phase msg slot today nowTs uid c dbst).1.count k +
      (if dictGet (slot_phase msg slot today nowTs uid c dbst).2.2 k = some today
        then 0 else 1) ≤
      (if dictGet dbst.2 k = some today then 0 else 1)) ∧
     (dictGet dbst.2 k = some today →
      (slot_phase msg slot today nowTs uid c dbst).1.count k = 0 ∧
      dictGet (slot_phase msg slot today nowTs uid c dbst).2.2 k = some today)) := by
  rcases phase_cases msg slot today nowTs uid c dbst with ⟨h1, h2⟩ | ⟨h1, hg, h2⟩
  · rw [h1, h2]
    exact ⟨by simp, fun h => ⟨by simp, h⟩⟩
  · rw [h1, h2]
    by_cases hk : k = (uid, slot)
    · subst hk
      rw [dictGet_dictSet_self]
      refine ⟨?_, fun h => absurd h hg⟩
      rw [if_neg hg, if_pos rfl]
      simp [List.count_cons]
    · rw [dictGet_dictSet_ne dbst.2 _ _ _ hk]
      have hc : List.count k [(uid, slot)] = 0 := by
        simp [List.count_cons, Ne.symm hk]
      rw [hc]
      exact ⟨by omega, fun h => ⟨rfl, h⟩⟩

theorem phase_ne (msg : MessageProvider) (slot : Slot) (today nowTs : ℕ)
    (uid : ℤ) (c : Bool) (dbst : List SettingsRow × DedupMap)
    (k : ℤ × Slot) (hk : k ≠ (uid, slot)) :
    (slot_phase msg slot today nowTs uid c dbst).1.count k = 0 ∧
    dictGet (slot_phase msg slot today nowTs uid c dbst).2.2 k =
      dictGet dbst.2 k := by
  rcases phase_cases msg slot today nowTs uid c dbst with ⟨h1, h2⟩ | ⟨h1, _, h2⟩
  · rw [h1, h2]; exact ⟨rfl, rfl⟩
  · rw [h1, h2, dictGet_dictSet_ne dbst.2 _ _ _ hk]
    refine ⟨?_, rfl⟩
    simp [List.count_cons, Ne.symm hk]

end LearningEnBot
namespace LearningEnBot

/-- Composition of the two slot phases of one loop iteration: the
per-key send count plus the "not yet sent today" potential never grows;
an entry already marked today stays marked with no new send for it;
other users' keys are untouched; and the settings table is preserved. -/
theorem step_general (msg : MessageProvider) (today nowTs : ℕ)
    (s0 : List (ℤ × Slot)) (db : List SettingsRow) (st : DedupMap)
    (uid : ℤ) (c1 c2 : Bool) (k : ℤ × Slot) :
    let p1 := slot_phase msg Slot.morning today nowTs uid c1 (db, st)
    let p2 := slot_phase msg Slot.evening today nowTs uid c2 (p1.2.1, p1.2.2)
    ((s0 ++ p1.1 ++ p2.1).count k +
        (if dictGet p2.2.2 k = some today then 0 else 1) ≤
      s0.count k + (if dictGet st k = some today then 0 else 1)) ∧
    (dictGet st k = some today →
      (s0 ++ p1.1 ++ p2.1).count k = s0.count k ∧
      dictGet p2.2.2 k = some today) ∧
    (uid ≠ k.1 →
      (s0 ++ p1.1 ++ p2.1).count k = s0.count k ∧
      dictGet p2.2.2 k = dictGet st k) ∧
    ((uid ≤ 0 ∨ (db.find? (fun x => x.user_id == uid)).isSome) →
      p2.2.1 = db) := by
  intro p1 p2
  have hsplit : (s0 ++ p1.1 ++ p2.1).count k =
      s0.count k + p1.1.count k + p2.1.count k := by
    rw [List.count_append, List.count_append]
  have hp1 : (p1.1.count k +
        (if dictGet p1.2.2 k = some today then 0 else 1) ≤
        (if dictGet st k = some today then 0 else 1)) ∧
      (dictGet st k = some today →
        p1.1.count k = 0 ∧ dictGet p1.2.2 k = some today) :=
    phase_key msg Slot.morning today nowTs uid c1 (db, st) k
  have hp2 : (p2.1.count k +
        (if dictGet p2.2.2 k = some today then 0 else 1) ≤
        (if dictGet p1.2.2 k = some today then 0 else 1)) ∧
      (dictGet p1.2.2 k = some today →
        p2.1.count k = 0 ∧ dictGet p2.2.2 k = some today) :=
    phase_key msg Slot.evening today nowTs uid c2 (p1.2.1, p1.2.2) k
  refine ⟨?_, ?_, ?_, ?_⟩
  · rw [hsplit]
    have h1 := hp1.1
    have h2 := hp2.1
    omega
  · intro h
    obtain ⟨hc1, hd1⟩ := hp1.2 h
    obtain ⟨hc2, hd2⟩ := hp2.2 hd1
    rw [hsplit, hc1, hc2]
    exact ⟨by omega, hd2⟩
  · intro hne
    have hk1 : k ≠ (uid, Slot.morning) := by
      intro hk; rw [hk] at hne; exact hne rfl
    have hk2 : k ≠ (uid, Slot.evening) := by
      intro hk; rw [hk] at hne; exact hne rfl
    have hn1 : p1.1.count k = 0 ∧ dictGet p1.2.2 k = dictGet st k :=
      phase_ne msg Slot.morning today nowTs uid c1 (db, st) k hk1
    have hn2 : p2.1.count k = 0 ∧ dictGet p2.2.2 k = dictGet p1.2.2 k :=
      phase_ne msg Slot.evening today nowTs uid c2 (p1.2.1, p1.2.2) k hk2
    rw [hsplit, hn1.1, hn2.1, hn2.2, hn1.2]
    exact ⟨by omega, rfl⟩
  · intro hpres
    have hd1 : p1.2.1 = db :=
      phase_db msg Slot.morning today nowTs uid c1 (db, st) hpres
    have hd2 : p2.2.1 = p1.2.1 :=
      phase_db msg Slot.evening today nowTs uid c2 (p1.2.1, p1.2.2)
        (by rw [show (p1.2.1, p1.2.2).1 = p1.2.1 from rfl, hd1]; exact hpres)
    rw [hd2, hd1]

/-- The four step facts, at the level of `scheduler_step`. -/
theorem scheduler_step_key (msg : MessageProvider) (today cur nowTs : ℕ)
    (acc : List (ℤ × Slot) × List SettingsRow × DedupMap) (r : SettingsRow)
    (k : ℤ × Slot) :
    ((scheduler_step msg today cur nowTs acc r).1.count k +
        (if dictGet (scheduler_step msg today cur nowTs acc r).2.2 k = some today
          then 0 else 1) ≤
      acc.1.count k + (if dictGet acc.2.2 k = some today then 0 else 1)) ∧
    (dictGet acc.2.2 k = some today →
      (scheduler_step msg today cur nowTs acc r).1.count k = acc.1.count k ∧
      dictGet (scheduler_step msg today cur nowTs acc r).2.2 k = some today) ∧
    (r.user_id ≠ k.1 →
      (scheduler_step msg today cur nowTs acc r).1.count k = acc.1.count k ∧
      dictGet (scheduler_step msg today cur nowTs acc r).2.2 k =
        dictGet acc.2.2 k) ∧
    ((r.user_id ≤ 0 ∨ (acc.2.1.find? (fun x => x.user_id == r.user_id)).isSome) →
      (scheduler_step msg today cur nowTs acc r).2.1 = acc.2.1) := by
  unfold scheduler_step
  exact step_general msg today nowTs acc.1 acc.2.1 acc.2.2 r.user_id _ _ k

end LearningEnBot
namespace LearningEnBot

theorem step_fires_morning_general (msg : MessageProvider) (today nowTs : ℕ)
    (s0 : List (ℤ × Slot)) (db : List SettingsRow) (st : DedupMap)
    (uid : ℤ) (c1 c2 : Bool) (hc1 : c1 = true)
    (hen : (get_user_settings db uid nowTs).1.reminders_enabled = true)
    (hnot : dictGet st (uid, Slot.morning) ≠ some today)
    (hpres : uid ≤ 0 ∨ (db.find? (fun x => x.user_id == uid)).isSome)
    (hmsg : msg uid Slot.morning ≠ [])
    (hmark : py_contains no_words_marker (msg uid Slot.morning) = false) :
    let p1 := slot_phase msg Slot.morning today nowTs uid c1 (db, st)
    let p2 := slot_phase msg Slot.evening today nowTs uid c2 (p1.2.1, p1.2.2)
    (s0 ++ p1.1 ++ p2.1).count (uid, Slot.morning) =
      s0.count (uid, Slot.morning) + 1 ∧
    dictGet p2.2.2 (uid, Slot.morning) = some today ∧ p2.2.1 = db := by
  subst hc1
  intro p1 p2
  have h1 : p1.1 = [(uid, Slot.morning)] ∧
      p1.2.2 = dictSet st (uid, Slot.morning) today :=
    send_slot_fires msg Slot.morning today nowTs uid db st hen hnot hmsg hmark
  have h1db : p1.2.1 = db :=
    send_slot_db_eq msg Slot.morning today nowTs uid db st hpres
  have hn2 : p2.1.count (uid, Slot.morning) = 0 ∧
      dictGet p2.2.2 (uid, Slot.morning) = dictGet p1.2.2 (uid, Slot.morning) :=
    phase_ne msg Slot.evening today nowTs uid c2 (p1.2.1, p1.2.2)
      (uid, Slot.morning) (by simp)
  have h2db : p2.2.1 = p1.2.1 :=
    phase_db msg Slot.evening today nowTs uid c2 (p1.2.1, p1.2.2)
      (by rw [show (p1.2.1, p1.2.2).1 = p1.2.1 from rfl, h1db]; exact hpres)
  refine ⟨?_, ?_, by rw [h2db, h1db]⟩
  · rw [List.count_append, List.count_append, h1.1, hn2.1]
    simp [List.count_cons]
  · rw [hn2.2, h1.2, dictGet_dictSet_self]

theorem step_fires_evening_general (msg : MessageProvider) (today nowTs : ℕ)
    (s0 : List (ℤ × Slot)) (db : List SettingsRow) (st : DedupMap)
    (uid : ℤ) (c1 c2 : Bool)
    (hc2 : dictGet (slot_phase msg Slot.morning today nowTs uid c1 (db, st)).2.2
        (uid, Slot.evening) ≠ some today → c2 = true)
    (hen : (get_user_settings db uid nowTs).1.reminders_enabled = true)
    (hnot : dictGet st (uid, Slot.evening) ≠ some today)
    (hpres : uid ≤ 0 ∨ (db.find? (fun x => x.user_id == uid)).isSome)
    (hmsg : msg uid Slot.evening ≠ [])
    (hmark : py_contains no_words_marker (msg uid Slot.evening) = false) :
    let p1 := slot_phase msg Slot.morning today nowTs uid c1 (db, st)
    let p2 := slot_phase msg Slot.evening today nowTs uid c2 (p1.2.1, p1.2.2)
    (s0 ++ p1.1 ++ p2.1).count (uid, Slot.evening) =
      s0.count (uid, Slot.evening) + 1 ∧
    dictGet p2.2.2 (uid, Slot.evening) = some today ∧ p2.2.1 = db := by
  intro p1 p2
  have hn1 : p1.1.count (uid, Slot.evening) = 0 ∧
      dictGet p1.2.2 (uid, Slot.evening) = dictGet st (uid, Slot.evening) :=
    phase_ne msg Slot.morning today nowTs uid c1 (db, st)
      (uid, Slot.evening) (by simp)
  have h1db : p1.2.1 = db :=
    phase_db msg Slot.morning today nowTs uid c1 (db, st) hpres
  have hnot1 : dictGet p1.2.2 (uid, Slot.evening) ≠ some today := by
    rw [hn1.2]; exact hnot
  have hc2' : c2 = true := hc2 hnot1
  subst hc2'
  have h2 : p2.1 = [(uid, Slot.evening)] ∧
      p2.2.2 = dictSet p1.2.2 (uid, Slot.evening) today :=
    send_slot_fires msg Slot.evening today nowTs uid p1.2.1 p1.2.2
      (by rw [h1db]; exact hen) hnot1 hmsg hmark
  have h2db : p2.2.1 = p1.2.1 :=
    send_slot_db_eq msg Slot.evening today nowTs uid p1.2.1 p1.2.2
      (by rw [h1db]; exact hpres)
  refine ⟨?_, ?_, by rw [h2db, h1db]⟩
  · rw [List.count_append, List.count_append, hn1.1, h2.1]
    simp [List.count_cons]
  · rw [h2.2, dictGet_dictSet_self]

/-- When the current minute equals a user's configured slot minute, the
slot was not yet sent today, reminders are enabled for the user, and the
slot's message is sendable, processing that user's row sends exactly one
event for the (user, slot) key and marks it sent today. -/
theorem scheduler_step_fires (msg : MessageProvider) (today cur nowTs : ℕ)
    (acc : List (ℤ × Slot) × List SettingsRow × DedupMap) (r : SettingsRow)
    (slot : Slot)
    (hmin : cur = (parse_time (slot_time r slot)).1 * 60 +
      (parse_time (slot_time r slot)).2)
    (hnot : dictGet acc.2.2 (r.user_id, slot) ≠ some today)
    (hen : (get_user_settings acc.2.1 r.user_id nowTs).1.reminders_enabled = true)
    (hpres : r.user_id ≤ 0 ∨
      (acc.2.1.find? (fun x => x.user_id == r.user_id)).isSome)
    (hmsg : msg r.user_id slot ≠ [])
    (hmark : py_contains no_words_marker (msg r.user_id slot) = false) :
    (scheduler_step msg today cur nowTs acc r).1.count (r.user_id, slot) =
      acc.1.count (r.user_id, slot) + 1 ∧
    dictGet (scheduler_step msg today cur nowTs acc r).2.2 (r.user_id, slot) =
      some today ∧
    (scheduler_step msg today cur nowTs acc r).2.1 = acc.2.1 := by
  cases slot with
  | morning =>
    unfold scheduler_step
    exact step_fires_morning_general msg today nowTs acc.1 acc.2.1 acc.2.2
      r.user_id _ _ (by simp [slot_time] at hmin; simp [hmin, hnot])
      hen hnot hpres hmsg hmark
  | evening =>
    unfold scheduler_step
    exact step_fires_evening_general msg today nowTs acc.1 acc.2.1 acc.2.2
      r.user_id _ _ (fun h => by
        simp only [slot_time] at hmin
        rw [Bool.and_eq_true]
        constructor
        · simp [hmin]
        · simp only [Bool.not_eq_true', beq_eq_false_iff_ne]
          exact h)
      hen hnot hpres hmsg hmark

end LearningEnBot
namespace LearningEnBot

/-- Folding the tick body over any user list: the per-key send count plus
the dedup potential never grows; a key already marked today stays marked
with no new sends; users with other ids leave the key alone. -/
theorem fold_key (msg : MessageProvider) (today cur nowTs : ℕ)
    (us : List SettingsRow) :
    ∀ (acc : List (ℤ × Slot) × List SettingsRow × DedupMap) (k : ℤ × Slot),
    ((us.foldl (scheduler_step msg today cur nowTs) acc).1.count k +
        (if dictGet (us.foldl (scheduler_step msg today cur nowTs) acc).2.2 k =
          some today then 0 else 1) ≤
      acc.1.count k + (if dictGet acc.2.2 k = some today then 0 else 1)) ∧
    (dictGet acc.2.2 k = some today →
      (us.foldl (scheduler_step msg today cur nowTs) acc).1.count k =
        acc.1.count k ∧
      dictGet (us.foldl (scheduler_step msg today cur nowTs) acc).2.2 k =
        some today) ∧
    ((∀ r ∈ us, r.user_id ≠ k.1) →
      (us.foldl (scheduler_step msg today cur nowTs) acc).1.count k =
        acc.1.count k ∧
      dictGet (us.foldl (scheduler_step msg today cur nowTs) acc).2.2 k =
        dictGet acc.2.2 k) := by
  induction us with
  | nil => exact fun acc k => ⟨le_refl _, fun h => ⟨rfl, h⟩, fun _ => ⟨rfl, rfl⟩⟩
  | cons r us ih =>
    intro acc k
    rw [List.foldl_cons]
    have hstep := scheduler_step_key msg today cur nowTs acc r k
    have hih := ih (scheduler_step msg today cur nowTs acc r) k
    refine ⟨?_, ?_, ?_⟩
    · have h1 := hstep.1
      have h2 := hih.1
      omega
    · intro h
      obtain ⟨hc, hd⟩ := hstep.2.1 h
      obtain ⟨hc2, hd2⟩ := hih.2.1 hd
      exact ⟨by rw [hc2, hc], hd2⟩
    · intro hne
      obtain ⟨hc, hd⟩ := hstep.2.2.1 (hne r (List.mem_cons_self r us))
      obtain ⟨hc2, hd2⟩ := hih.2.2
        (fun x hx => hne x (List.mem_cons_of_mem r hx))
      exact ⟨by rw [hc2, hc], by rw [hd2, hd]⟩

/-- Folding the tick body preserves the settings table whenever every
processed user is either invalid or present in it. -/
theorem fold_db (msg : MessageProvider) (today cur nowTs : ℕ)
    (us : List SettingsRow) :
    ∀ (acc : List (ℤ × Slot) × List SettingsRow × DedupMap),
    (∀ r ∈ us, r.user_id ≤ 0 ∨
      (acc.2.1.find? (fun x => x.user_id == r.user_id)).isSome) →
    (us.foldl (scheduler_step msg today cur nowTs) acc).2.1 = acc.2.1 := by
  induction us with
  | nil => exact fun acc _ => rfl
  | cons r us ih =>
    intro acc hpres
    rw [List.foldl_cons]
    have hstep := (scheduler_step_key msg today cur nowTs acc r
        (0, Slot.morning)).2.2.2 (hpres r (List.mem_cons_self r us))
    have hih := ih (scheduler_step msg today cur nowTs acc r)
      (fun x hx => by rw [hstep]; exact hpres x (List.mem_cons_of_mem r hx))
    rw [hih, hstep]

end LearningEnBot
namespace LearningEnBot

theorem tick_db (msg : MessageProvider) (today cur nowTs : ℕ)
    (db : List SettingsRow) (st : DedupMap) :
    (check_and_send_reminders msg today cur nowTs db st).2.1 = db := by
  unfold check_and_send_reminders
  simp only []
  exact fold_db msg today cur nowTs _ ([], db, st)
    (fun r hr => Or.inr (find?_isSome_of_mem (List.mem_of_mem_filter hr)))

theorem tick_bound (msg : MessageProvider) (today cur nowTs : ℕ)
    (db : List SettingsRow) (st : DedupMap) (k : ℤ × Slot) :
    (check_and_send_reminders msg today cur nowTs db st).1.count k +
      (if dictGet (check_and_send_reminders msg today cur nowTs db st).2.2 k =
        some today then 0 else 1) ≤
    (if dictGet st k = some today then 0 else 1) := by
  unfold check_and_send_reminders
  simp only []
  have hfold := (fold_key msg today cur nowTs
    (db.filter (fun r => r.reminders_enabled)) ([], db, st) k).1
  simp only [List.count_nil] at hfold
  by_cases hd : dictGet ((db.filter (fun r => r.reminders_enabled)).foldl
      (scheduler_step msg today cur nowTs) ([], db, st)).2.2 k = some today
  · rw [dictGet_purge_of_today _ k today hd, if_pos rfl]
    rw [if_pos hd] at hfold
    omega
  · rw [if_neg hd] at hfold
    have hle : (if dictGet ((((db.filter (fun r => r.reminders_enabled)).foldl
        (scheduler_step msg today cur nowTs) ([], db, st)).2.2).filter
        (fun kv => ! decide (kv.2 < today))) k = some today then (0:ℕ) else 1) ≤ 1 := by
      split_ifs <;> omega
    omega

theorem tick_blocked (msg : MessageProvider) (today cur nowTs : ℕ)
    (db : List SettingsRow) (st : DedupMap) (k : ℤ × Slot)
    (h : dictGet st k = some today) :
    (check_and_send_reminders msg today cur nowTs db st).1.count k = 0 ∧
    dictGet (check_and_send_reminders msg today cur nowTs db st).2.2 k =
      some today := by
  unfold check_and_send_reminders
  simp only []
  have hfold := (fold_key msg today cur nowTs
    (db.filter (fun r => r.reminders_enabled)) ([], db, st) k).2.1 h
  exact ⟨by simpa using hfold.1,
    dictGet_purge_of_today _ k today hfold.2⟩

theorem tick_purge (msg : MessageProvider) (today cur nowTs : ℕ)
    (db : List SettingsRow) (st : DedupMap) :
    ∀ kv ∈ (check_and_send_reminders msg today cur nowTs db st).2.2,
      today ≤ kv.2 := by
  unfold check_and_send_reminders
  simp only []
  intro kv hkv
  have := List.of_mem_filter hkv
  simp only [Bool.not_eq_true', decide_eq_false_iff_not, not_lt] at this
  exact this

end LearningEnBot
namespace LearningEnBot

/-- A tick at a user's configured slot minute, with reminders enabled, a
sendable message and the slot not yet sent today, produces exactly one
send event for that (user, slot) and records it in the dedup table. -/
theorem tick_fires (msg : MessageProvider) (today cur nowTs : ℕ)
    (db : List SettingsRow) (st : DedupMap) (r : SettingsRow) (slot : Slot)
    (hr : r ∈ db) (hen : r.reminders_enabled = true)
    (hnd : (db.map (fun x => x.user_id)).Nodup)
    (hmin : cur = (parse_time (slot_time r slot)).1 * 60 +
      (parse_time (slot_time r slot)).2)
    (hnot : dictGet st (r.user_id, slot) ≠ some today)
    (hmsg : msg r.user_id slot ≠ [])
    (hmark : py_contains no_words_marker (msg r.user_id slot) = false) :
    (check_and_send_reminders msg today cur nowTs db st).1.count
      (r.user_id, slot) = 1 ∧
    dictGet (check_and_send_reminders msg today cur nowTs db st).2.2
      (r.user_id, slot) = some today := by
  unfold check_and_send_reminders
  simp only []
  have hrus : r ∈ db.filter (fun x => x.reminders_enabled) :=
    List.mem_filter.mpr ⟨hr, hen⟩
  obtain ⟨us1, us2, husplit⟩ := List.append_of_mem hrus
  have hndus : ((db.filter (fun x => x.reminders_enabled)).map
      (fun x => x.user_id)).Nodup :=
    hnd.sublist ((List.filter_sublist db).map (fun x => x.user_id))
  rw [husplit, List.map_append, List.map_cons] at hndus
  have hd1 := List.nodup_append.mp hndus
  have hrne1 : ∀ x ∈ us1, x.user_id ≠ r.user_id := fun x hx heq =>
    hd1.2.2 (List.mem_map_of_mem _ hx) (heq ▸ List.mem_cons_self _ _)
  have hrne2 : ∀ x ∈ us2, x.user_id ≠ r.user_id := fun x hx heq =>
    (List.nodup_cons.mp hd1.2.1).1 (heq ▸ List.mem_map_of_mem _ hx)
  have hmem1 : ∀ x ∈ us1, x ∈ db := fun x hx =>
    List.mem_of_mem_filter (husplit ▸ List.mem_append_left _ hx)
  rw [husplit, List.foldl_append, List.foldl_cons]
  have hA := (fold_key msg today cur nowTs us1 ([], db, st)
    (r.user_id, slot)).2.2 (fun x hx => hrne1 x hx)
  simp only [List.count_nil] at hA
  have hAdb := fold_db msg today cur nowTs us1 ([], db, st)
    (fun x hx => Or.inr (find?_isSome_of_mem (hmem1 x hx)))
  have hstep := scheduler_step_fires msg today cur nowTs
    (us1.foldl (scheduler_step msg today cur nowTs) ([], db, st)) r slot hmin
    (by rw [hA.2]; exact hnot)
    (by rw [hAdb]; exact get_user_settings_enabled db r nowTs hr hnd hen)
    (by rw [hAdb]; exact Or.inr (find?_isSome_of_mem hr))
    hmsg hmark
  have hB := (fold_key msg today cur nowTs us2
    (scheduler_step msg today cur nowTs
      (us1.foldl (scheduler_step msg today cur nowTs) ([], db, st)) r)
    (r.user_id, slot)).2.1 hstep.2.1
  constructor
  · rw [hB.1, hstep.1, hA.1]
  · exact dictGet_purge_of_today _ _ today hB.2

end LearningEnBot
namespace LearningEnBot

/-- Accumulated sends of a tick sequence factor through `run_ticks`. -/
theorem run_ticks_shift (msg : MessageProvider) (today nowTs : ℕ)
    (ts : List ℕ) :
    ∀ (s0 : List (ℤ × Slot)) (db : List SettingsRow) (st : DedupMap),
    ts.foldl (fun acc t =>
      let res := check_and_send_reminders msg today t nowTs acc.2.1 acc.2.2
      (acc.1 ++ res.1, res.2)) (s0, db, st) =
    (s0 ++ (run_ticks msg today ts nowTs db st).1,
     (run_ticks msg today ts nowTs db st).2) := by
  induction ts with
  | nil =>
    intro s0 db st
    unfold run_ticks
    simp
  | cons t ts ih =>
    intro s0 db st
    unfold run_ticks
    rw [List.foldl_cons, List.foldl_cons]
    simp only []
    rw [ih, ih]
    simp [List.append_assoc]

theorem run_ticks_bound (msg : MessageProvider) (today nowTs : ℕ)
    (ticks : List ℕ) (k : ℤ × Slot) :
    ∀ (db : List SettingsRow) (st : DedupMap),
    (run_ticks msg today ticks nowTs db st).1.count k +
      (if dictGet (run_ticks msg today ticks nowTs db st).2.2 k = some today
        then 0 else 1) ≤
    (if dictGet st k = some today then 0 else 1) := by
  induction ticks with
  | nil =>
    intro db st
    unfold run_ticks
    simp
  | cons t ts ih =>
    intro db st
    have hcons : run_ticks msg today (t :: ts) nowTs db st =
        ((check_and_send_reminders msg today t nowTs db st).1 ++
          (run_ticks msg today ts nowTs
            (check_and_send_reminders msg today t nowTs db st).2.1
            (check_and_send_reminders msg today t nowTs db st).2.2).1,
         (run_ticks msg today ts nowTs
            (check_and_send_reminders msg today t nowTs db st).2.1
            (check_and_send_reminders msg today t nowTs db st).2.2).2) := by
      unfold run_ticks
      rw [List.foldl_cons]
      exact run_ticks_shift msg today nowTs ts
        (check_and_send_reminders msg today t nowTs db st).1
        (check_and_send_reminders msg today t nowTs db st).2.1
        (check_and_send_reminders msg today t nowTs db st).2.2
    rw [hcons]
    simp only [List.count_append]
    have h1 := tick_bound msg today t nowTs db st k
    have h2 := ih (check_and_send_reminders msg today t nowTs db st).2.1
      (check_and_send_reminders msg today t nowTs db st).2.2
    omega

end LearningEnBot
namespace LearningEnBot

/-- C2: per (user, slot) the scheduler sends at most once per calendar
day: a tick at the user's configured slot minute with reminders enabled
and a sendable message sends exactly once and records the dedup entry; a
tick while the entry records today sends nothing for the slot and keeps
the entry; over any sequence of same-day ticks at most one send occurs
for the key; every tick purges dedup entries dated before today; and a
tick at the slot minute on the following day sends again. -/
theorem c2_scheduler_dedup :
    (∀ (msg : MessageProvider) (today cur nowTs : ℕ) (db : List SettingsRow)
        (st : DedupMap) (r : SettingsRow) (slot : Slot),
      r ∈ db → r.reminders_enabled = true →
      (db.map (fun x => x.user_id)).Nodup →
      cur = (parse_time (slot_time r slot)).1 * 60 +
        (parse_time (slot_time r slot)).2 →
      dictGet st (r.user_id, slot) ≠ some today →
      msg r.user_id slot ≠ [] →
      py_contains no_words_marker (msg r.user_id slot) = false →
      (check_and_send_reminders msg today cur nowTs db st).1.count
        (r.user_id, slot) = 1 ∧
      dictGet (check_and_send_reminders msg today cur nowTs db st).2.2
        (r.user_id, slot) = some today) ∧
    (∀ (msg : MessageProvider) (today cur nowTs : ℕ) (db : List SettingsRow)
        (st : DedupMap) (u : ℤ) (slot : Slot),
      dictGet st (u, slot) = some today →
      (check_and_send_reminders msg today cur nowTs db st).1.count
        (u, slot) = 0 ∧
      dictGet (check_and_send_reminders msg today cur nowTs db st).2.2
        (u, slot) = some today) ∧
    (∀ (msg : MessageProvider) (today nowTs : ℕ) (ticks : List ℕ)
        (db : List SettingsRow) (st : DedupMap) (u : ℤ) (slot : Slot),
      (run_ticks msg today ticks nowTs db st).1.count (u, slot) ≤ 1) ∧
    (∀ (msg : MessageProvider) (today cur nowTs : ℕ) (db : List SettingsRow)
        (st : DedupMap),
      ∀ kv ∈ (check_and_send_reminders msg today cur nowTs db st).2.2,
        today ≤ kv.2) ∧
    (∀ (msg : MessageProvider) (d cur nowTs : ℕ) (db : List SettingsRow)
        (st : DedupMap) (r : SettingsRow) (slot : Slot),
      r ∈ db → r.reminders_enabled = true →
      (db.map (fun x => x.user_id)).Nodup →
      cur = (parse_time (slot_time r slot)).1 * 60 +
        (parse_time (slot_time r slot)).2 →
      dictGet st (r.user_id, slot) = some d →
      msg r.user_id slot ≠ [] →
      py_contains no_words_marker (msg r.user_id slot) = false →
      (check_and_send_reminders msg (d + 1) cur nowTs db st).1.count
        (r.user_id, slot) = 1 ∧
      dictGet (check_and_send_reminders msg (d + 1) cur nowTs db st).2.2
        (r.user_id, slot) = some (d + 1)) := by
  refine ⟨?_, ?_, ?_, ?_, ?_⟩
  · intro msg today cur nowTs db st r slot hr hen hnd hmin hnot hmsg hmark
    exact tick_fires msg today cur nowTs db st r slot hr hen hnd hmin hnot
      hmsg hmark
  · intro msg today cur nowTs db st u slot h
    exact tick_blocked msg today cur nowTs db st (u, slot) h
  · intro msg today nowTs ticks db st u slot
    have h := run_ticks_bound msg today nowTs ticks (u, slot) db st
    split_ifs at h <;> omega
  · intro msg today cur nowTs db st
    exact tick_purge msg today cur nowTs db st
  · intro msg d cur nowTs db st r slot hr hen hnd hmin hd hmsg hmark
    exact tick_fires msg (d + 1) cur nowTs db st r slot hr hen hnd hmin
      (by rw [hd]; intro hcon; simp only [Option.some.injEq] at hcon; omega)
      hmsg hmark

/-- Witness for C2: one user with morning time 09:00, a tick at minute
540 of day 0 sends once; a tick with the entry recorded sends nothing; a
three-tick day stays at one send; purge; and day 1 sends again. -/
theorem c2_witness :
    ((check_and_send_reminders (fun _ _ => ['h', 'i']) 0 540 0
        [{ user_id := 1, morning_time := ['0', '9', ':', '0', '0'],
           evening_time := ['2', '0', ':', '0', '0'], reminders_enabled := true,
           created_at := 0, updated_at := 0 }] []).1.count (1, Slot.morning) = 1 ∧
      dictGet (check_and_send_reminders (fun _ _ => ['h', 'i']) 0 540 0
        [{ user_id := 1, morning_time := ['0', '9', ':', '0', '0'],
           evening_time := ['2', '0', ':', '0', '0'], reminders_enabled := true,
           created_at := 0, updated_at := 0 }] []).2.2 (1, Slot.morning) = some 0) ∧
    ((check_and_send_reminders (fun _ _ => ['h', 'i']) 0 541 0
        [{ user_id := 1, morning_time := ['0', '9', ':', '0', '0'],
           evening_time := ['2', '0', ':', '0', '0'], reminders_enabled := true,
           created_at := 0, updated_at := 0 }]
        [((1, Slot.morning), 0)]).1.count (1, Slot.morning) = 0 ∧
      dictGet (check_and_send_reminders (fun _ _ => ['h', 'i']) 0 541 0
        [{ user_id := 1, morning_time := ['0', '9', ':', '0', '0'],
           evening_time := ['2', '0', ':', '0', '0'], reminders_enabled := true,
           created_at := 0, updated_at := 0 }]
        [((1, Slot.morning), 0)]).2.2 (1, Slot.morning) = some 0) ∧
    ((run_ticks (fun _ _ => ['h', 'i']) 0 [540, 540, 600] 0
        [{ user_id := 1, morning_time := ['0', '9', ':', '0', '0'],
           evening_time := ['2', '0', ':', '0', '0'], reminders_enabled := true,
           created_at := 0, updated_at := 0 }] []).1.count (1, Slot.morning) ≤ 1) ∧
    ((check_and_send_reminders (fun _ _ => ['h', 'i']) 1 540 0
        [{ user_id := 1, morning_time := ['0', '9', ':', '0', '0'],
           evening_time := ['2', '0', ':', '0', '0'], reminders_enabled := true,
           created_at := 0, updated_at := 0 }]
        [((1, Slot.morning), 0)]).1.count (1, Slot.morning) = 1 ∧
      dictGet (check_and_send_reminders (fun _ _ => ['h', 'i']) 1 540 0
        [{ user_id := 1, morning_time := ['0', '9', ':', '0', '0'],
           evening_time := ['2', '0', ':', '0', '0'], reminders_enabled := true,
           created_at := 0, updated_at := 0 }]
        [((1, Slot.morning), 0)]).2.2 (1, Slot.morning) = some 1) :=
  ⟨c2_scheduler_dedup.1 (fun _ _ => ['h', 'i']) 0 540 0 _ []
      { user_id := 1, morning_time := ['0', '9', ':', '0', '0'],
        evening_time := ['2', '0', ':', '0', '0'], reminders_enabled := true,
        created_at := 0, updated_at := 0 } Slot.morning
      (by decide) rfl (by decide) (by decide) (by decide) (by decide) (by decide),
   c2_scheduler_dedup.2.1 (fun _ _ => ['h', 'i']) 0 541 0 _
      [((1, Slot.morning), 0)] 1 Slot.morning (by decide),
   c2_scheduler_dedup.2.2.1 (fun _ _ => ['h', 'i']) 0 0 [540, 540, 600] _ [] 1
      Slot.morning,
   c2_scheduler_dedup.2.2.2.2 (fun _ _ => ['h', 'i']) 0 540 0 _
      [((1, Slot.morning), 0)]
      { user_id := 1, morning_time := ['0', '9', ':', '0', '0'],
        evening_time := ['2', '0', ':', '0', '0'], reminders_enabled := true,
        created_at := 0, updated_at := 0 } Slot.morning
      (by decide) rfl (by decide) (by decide) (by decide) (by decide) (by decide)⟩

end LearningEnBot
